import Mathlib

/-!
Verification development for the surround-view image pipeline
(src/src/ImageProcessor.cpp).  The C++ code is shallowly embedded:
rasters (cv::Mat) become `Frame` records with a total pixel function,
8-bit/float arithmetic becomes exact rational arithmetic, and the external
vision backend (OpenCV undistortion calls, which the repository only
invokes) is a parameter that may fail (`Option`), modelling a thrown
cv::Exception as `none`.  The floating-point trigonometry used by the
cylindrical projector is modelled over the real numbers in a separate
section.
-/

namespace SurroundView

/-- A pixel value: BGR channel triple.  The C++ code stores 8-bit values
(0..255); we model the values as rationals. -/
abbrev Pix := ℚ × ℚ × ℚ

/-- Model of cv::Mat: a raster with row/column counts, a channel count and
a total pixel-lookup function (lookups outside the raster are never used by
the embedded code paths unless guarded). -/
structure Frame where
  rows : ℕ
  cols : ℕ
  channels : ℕ
  pix : ℕ → ℕ → Pix

/-- cv::Mat::empty(): true when the raster has no pixels.  A
default-constructed cv::Mat() has rows = cols = 0. -/
def Frame.isEmpty (f : Frame) : Bool :=
  f.rows == 0 || f.cols == 0

/-- The empty raster cv::Mat() (a default cv::Mat reports 1 channel). -/
def Frame.blank : Frame :=
  { rows := 0, cols := 0, channels := 1, pix := fun _ _ => (0, 0, 0) }

/-- 3x3 camera intrinsic matrix K (cv::Mat of doubles in the source). -/
structure Mat3 where
  a00 : ℚ
  a01 : ℚ
  a02 : ℚ
  a10 : ℚ
  a11 : ℚ
  a12 : ℚ
  a20 : ℚ
  a21 : ℚ
  a22 : ℚ
deriving DecidableEq

/-- 4-vector of distortion coefficients D. -/
structure Vec4 where
  k1 : ℚ
  k2 : ℚ
  k3 : ℚ
  k4 : ℚ
deriving DecidableEq

/-- Scaling of the focal-length entries (0,0) and (1,1) of a camera
matrix, as done by `newCameraMatrix.at<double>(0,0) *= s` (and (1,1)) in
undistortWithYAMLParams. -/
def scaleFxFy (k : Mat3) (s : ℚ) : Mat3 :=
  { k with a00 := k.a00 * s, a11 := k.a11 * s }

/-- The calibration state held by ImageProcessor after loadCameraParameters:
per-camera maps for K, D, xi and the scale/shift corrections (the loader
defaults scale to (1,1) and shift to (0,0)). -/
structure CalibStore where
  cameraMatrices : String → Option Mat3
  distortionCoeffs : String → Option Vec4
  xiParams : String → ℚ
  scaleXY : String → ℚ × ℚ
  shiftXY : String → ℚ × ℚ

/-- The external vision backend (OpenCV).  `none` models a thrown
cv::Exception.  The repository only calls these routines; their internals
are outside the codebase, so they are parameters of the embedding. -/
structure VisionBackend where
  fisheyeUndistortImage : Frame → Mat3 → Vec4 → Mat3 → Option Frame
  undistort : Frame → Mat3 → Vec4 → Mat3 → Option Frame

/-- Record of one backend undistortion call made by
undistortWithYAMLParams, with the matrices passed and whether the call
succeeded. -/
inductive BackendCall where
  | fisheyeCall (k : Mat3) (d : Vec4) (newK : Mat3) (ok : Bool)
  | standardCall (k : Mat3) (d : Vec4) (newK : Mat3) (ok : Bool)
deriving DecidableEq

/-- Whether a recorded backend call raised an exception. -/
def BackendCall.failed : BackendCall → Bool
  | .fisheyeCall _ _ _ ok => !ok
  | .standardCall _ _ _ ok => !ok

/-- floor(n * num / den) for the C++ pattern static_cast<int>(n * frac)
with a nonnegative int n and a nonnegative fraction. -/
def cropN (n : ℕ) (num den : ℕ) : ℕ :=
  n * num / den

/-- Sub-rectangle view image(cv::Rect(x, y, w, h)). -/
def subframe (image : Frame) (x y w h : ℕ) : Frame :=
  { rows := h, cols := w, channels := image.channels,
    pix := fun r c => image.pix (r + y) (c + x) }

/-- cv::resize to an explicit target size.  The size contract is what the
embedded code paths rely on; the resampled content is modelled by
nearest-point sampling (OpenCV uses INTER_LINEAR, an external detail). -/
def resizeModel (f : Frame) (w h : ℕ) : Frame :=
  { rows := h, cols := w, channels := f.channels,
    pix := fun r c => f.pix (r * f.rows / h) (c * f.cols / w) }

/-- cv::warpAffine with a pure translation matrix [1 0 tx; 0 1 ty]:
output size equals input size, destination pixel (x, y) samples the source
at (x - tx, y - ty), zero at the border (sampling modelled by floor; the
interpolation kernel is an external backend detail). -/
def translateFrame (f : Frame) (tx ty : ℚ) : Frame :=
  { rows := f.rows, cols := f.cols, channels := f.channels,
    pix := fun r c =>
      let sy : ℤ := ⌊(r : ℚ) - ty⌋
      let sx : ℤ := ⌊(c : ℚ) - tx⌋
      if 0 ≤ sy ∧ sy < f.rows ∧ 0 ≤ sx ∧ sx < f.cols then
        f.pix sy.toNat sx.toNat
      else (0, 0, 0) }

/-- applyCameraSpecificCropping: per-camera fixed fractional crop
rectangles (ImageProcessor.cpp lines 719-798), including the validation
that falls back to the original image on a degenerate rectangle. -/
def applyCameraSpecificCropping (image : Frame) (cameraName : String) : Frame :=
  if image.isEmpty then image
  else
    let w := image.cols
    let h := image.rows
    let raw : ℤ × ℤ × ℤ × ℤ :=
      if cameraName = "front" then
        let t := cropN h 15 100
        let b := cropN h 40 100
        let l := cropN w 15 100
        let r := cropN w 15 100
        ((l : ℤ), (t : ℤ), (w : ℤ) - l - r, (h : ℤ) - t - b)
      else if cameraName = "back" then
        let t := cropN h 15 100
        let b := cropN h 35 100
        let l := cropN w 15 100
        let r := cropN w 15 100
        ((l : ℤ), (t : ℤ), (w : ℤ) - l - r, (h : ℤ) - t - b)
      else if cameraName = "left" then
        let t := cropN h 15 100
        let b := cropN h 35 100
        let l := cropN w 25 100
        let r := cropN w 35 100
        ((l : ℤ), (t : ℤ), (w : ℤ) - l - r, (h : ℤ) - t - b)
      else if cameraName = "right" then
        let t := cropN h 15 100
        let b := cropN h 35 100
        let l := cropN w 35 100
        let r := cropN w 25 100
        ((l : ℤ), (t : ℤ), (w : ℤ) - l - r, (h : ℤ) - t - b)
      else
        let c := cropN (min w h) 10 100
        ((c : ℤ), (c : ℤ), (w : ℤ) - 2 * c, (h : ℤ) - 2 * c)
    let rx := max 0 raw.1
    let ry := max 0 raw.2.1
    let rw := min raw.2.2.1 ((w : ℤ) - rx)
    let rh := min raw.2.2.2 ((h : ℤ) - ry)
    if rw ≤ 0 ∨ rh ≤ 0 then image
    else subframe image rx.toNat ry.toNat rw.toNat rh.toNat

/-- Sum of all channel values of a frame. -/
def pixSum (f : Frame) : ℚ :=
  ((List.range f.rows).map (fun y =>
    ((List.range f.cols).map (fun x =>
      let p := f.pix y x
      p.1 + p.2.1 + p.2.2)).sum)).sum

/-- The validation luminance of undistortWithYAMLParams:
(mean B + mean G + mean R) / 3 as computed from cv::mean. -/
def lumaMean (f : Frame) : ℚ :=
  if f.rows = 0 ∨ f.cols = 0 then 0
  else pixSum f / (3 * f.rows * f.cols)

/-- The tail of undistortWithYAMLParams after a successful backend call:
camera-specific cropping, optional scale/shift correction, and the
near-black validation (lines 536-567).  `none` in the scale/shift branch
models the cv::Exception thrown by cv::resize on a degenerate target size,
which the enclosing try/catch turns into returning the input. -/
def afterUndistortStage (st : CalibStore) (input und : Frame)
    (cameraName : String) (calls : List BackendCall) : Frame × List BackendCall :=
  let cropped := applyCameraSpecificCropping und cameraName
  let scale := st.scaleXY cameraName
  let shift := st.shiftXY cameraName
  let finalRes : Option Frame :=
    if scale.1 ≠ 1 ∨ scale.2 ≠ 1 ∨ shift.1 ≠ 0 ∨ shift.2 ≠ 0 then
      let nw := (⌊(cropped.cols : ℚ) * scale.1⌋).toNat
      let nh := (⌊(cropped.rows : ℚ) * scale.2⌋).toNat
      if nw = 0 ∨ nh = 0 then none
      else some (translateFrame (resizeModel cropped nw nh) shift.1 shift.2)
    else some cropped
  match finalRes with
  | none => (input, calls)
  | some fin => if lumaMean fin < 5 then (input, calls) else (fin, calls)

/-- undistortWithYAMLParams (ImageProcessor.cpp lines 479-573), also
returning the trace of backend undistortion calls made.  xi > 0.5 selects
the aggressive fisheye path with fx, fy scaled by 0.45 and a fallback to
cv::undistort with the same matrix when cv::fisheye::undistortImage
throws; otherwise cv::undistort with fx, fy scaled by 0.6.  Any exception
reaching the outer catch returns the input unchanged. -/
def undistortWithYAMLParamsT (be : VisionBackend) (st : CalibStore)
    (input : Frame) (cameraName : String) : Frame × List BackendCall :=
  if input.isEmpty then (input, [])
  else
    match st.cameraMatrices cameraName, st.distortionCoeffs cameraName with
    | some k, some d =>
      let xi := st.xiParams cameraName
      if 1/2 < xi then
        let newK := scaleFxFy k (45/100)
        match be.fisheyeUndistortImage input k d newK with
        | some und =>
          afterUndistortStage st input und cameraName [.fisheyeCall k d newK true]
        | none =>
          match be.undistort input k d newK with
          | some und =>
            afterUndistortStage st input und cameraName
              [.fisheyeCall k d newK false, .standardCall k d newK true]
          | none =>
            (input, [.fisheyeCall k d newK false, .standardCall k d newK false])
      else
        let newK := scaleFxFy k (6/10)
        match be.undistort input k d newK with
        | some und =>
          afterUndistortStage st input und cameraName [.standardCall k d newK true]
        | none => (input, [.standardCall k d newK false])
    | _, _ => (input, [])

/-- undistortWithYAMLParams as seen by its callers. -/
def undistortWithYAMLParams (be : VisionBackend) (st : CalibStore)
    (input : Frame) (cameraName : String) : Frame :=
  (undistortWithYAMLParamsT be st input cameraName).1

/-- cv::rotate ROTATE_90_CLOCKWISE. -/
def rotateImage90Clockwise (f : Frame) : Frame :=
  { rows := f.cols, cols := f.rows, channels := f.channels,
    pix := fun r c => f.pix (f.rows - 1 - c) r }

/-- cv::rotate ROTATE_90_COUNTERCLOCKWISE. -/
def rotateImage90CounterClockwise (f : Frame) : Frame :=
  { rows := f.cols, cols := f.rows, channels := f.channels,
    pix := fun r c => f.pix c (f.cols - 1 - r) }

/-- cv::rotate ROTATE_180. -/
def rotateImage180 (f : Frame) : Frame :=
  { rows := f.rows, cols := f.cols, channels := f.channels,
    pix := fun r c => f.pix (f.rows - 1 - r) (f.cols - 1 - c) }

/-- 0-1 clamping: std::max(0.0f, std::min(1.0f, t)). -/
def clamp01 (t : ℚ) : ℚ :=
  max 0 (min 1 t)

/-- Squared distance between two points. -/
def dist2 (p q : ℚ × ℚ) : ℚ :=
  (p.1 - q.1) ^ 2 + (p.2 - q.2) ^ 2

/-- Squared distance from point q to segment a-b. -/
def segPointDist2 (a b q : ℚ × ℚ) : ℚ :=
  let dx := b.1 - a.1
  let dy := b.2 - a.2
  let len2 := dx ^ 2 + dy ^ 2
  if len2 = 0 then dist2 q a
  else
    let t := clamp01 (((q.1 - a.1) * dx + (q.2 - a.2) * dy) / len2)
    dist2 q (a.1 + t * dx, a.2 + t * dy)

/-- Idealized coverage of a rasterized cv::line of a given thickness:
points within thickness/2 of the segment.  (Exact per-pixel rasterization
is a backend detail; the embedded claims never probe pixels near the
coverage boundary.) -/
def lineCovers (a b : ℚ × ℚ) (thickness : ℚ) (q : ℚ × ℚ) : Bool :=
  if segPointDist2 a b q ≤ (thickness / 2) ^ 2 then true else false

/-- Membership of pixel (x, y) in cv::Rect(rx, ry, rw, rh). -/
def inRect (rx ry rw rh x y : ℕ) : Bool :=
  if rx ≤ x ∧ x < rx + rw ∧ ry ≤ y ∧ y < ry + rh then true else false

/-- Coverage of the cv::arrowedLine from (1140, 1087) to (1140, 1034) with
thickness 3 drawn by createSurroundView: the main stroke, with the two
short head strokes over-approximated by a disk of radius 18 around the
tip (tip length 0.3 * 53 ≈ 16, thickness 3; the exact head geometry is a
backend rasterization detail and no embedded claim probes pixels there). -/
def arrowCovers (q : ℚ × ℚ) : Bool :=
  lineCovers (1140, 1087) (1140, 1034) 3 q ||
    (if dist2 q (1140, 1034) ≤ 18 ^ 2 then true else false)

/-- The four camera regions of the 2280x2240 surround canvas shared by
createSurroundView and createSurroundViewParallel: front (720,0,840,720),
left (0,720,720,800), right (1560,720,720,800), back (720,1520,840,720);
pixels outside every region keep the cv::Mat::zeros background. -/
def surroundBasePix (pf pl pr pb : Frame) (y x : ℕ) : Pix :=
  if inRect 720 0 840 720 x y then pf.pix y (x - 720)
  else if inRect 0 720 720 800 x y then pl.pix (y - 720) x
  else if inRect 1560 720 720 800 x y then pr.pix (y - 720) (x - 1560)
  else if inRect 720 1520 840 720 x y then pb.pix (y - 1520) (x - 720)
  else (0, 0, 0)

/-- The decorations drawn only by the serial createSurroundView
(lines 352-381), in draw order: car-area fill (40,40,40) over the center
region, light-gray car indicator rectangle, white direction arrow, then
gray section borders; later drawing overrides earlier. -/
def serialOverlayPix (y x : ℕ) (base : Pix) : Pix :=
  let q : ℚ × ℚ := ((x : ℚ), (y : ℚ))
  if lineCovers (720, 0) (720, 2240) 2 q then (100, 100, 100)
  else if lineCovers (1560, 0) (1560, 2240) 2 q then (100, 100, 100)
  else if lineCovers (0, 720) (2280, 720) 2 q then (100, 100, 100)
  else if lineCovers (0, 1520) (2280, 1520) 2 q then (100, 100, 100)
  else if arrowCovers q then (255, 255, 255)
  else if inRect 1035 1054 210 133 x y then (200, 200, 200)
  else if inRect 720 720 840 800 x y then (40, 40, 40)
  else base

/-- createSurroundView (ImageProcessor.cpp lines 282-389): empty-input
guard, per-camera undistortion, rotations (left -90, right +90, back 180),
resize to the fixed section sizes (front/back 840x720, left/right
720x800), then composition onto the 2280x2240 canvas with the car-area
decorations and section borders. -/
def createSurroundView (be : VisionBackend) (st : CalibStore)
    (front left right back : Frame) : Frame :=
  if front.isEmpty || left.isEmpty || right.isEmpty || back.isEmpty then Frame.blank
  else
    let pf := undistortWithYAMLParams be st front ("front")
    let pl := rotateImage90CounterClockwise (undistortWithYAMLParams be st left ("left"))
    let pr := rotateImage90Clockwise (undistortWithYAMLParams be st right ("right"))
    let pb := rotateImage180 (undistortWithYAMLParams be st back ("back"))
    let rf := resizeModel pf 840 720
    let rl := resizeModel pl 720 800
    let rr := resizeModel pr 720 800
    let rb := resizeModel pb 840 720
    { rows := 2240, cols := 2280, channels := 3,
      pix := fun y x => serialOverlayPix y x (surroundBasePix rf rl rr rb y x) }

/-- processImageAsync (lines 916-938): the per-camera parallel task body,
undistortion followed by the camera-specific rotation.  The task's
deterministic result is what travels through the promise/future channel;
the embedding models that result directly. -/
def processImageAsync (be : VisionBackend) (st : CalibStore)
    (input : Frame) (cameraName : String) : Frame :=
  let und := undistortWithYAMLParams be st input cameraName
  if cameraName = "left" then rotateImage90CounterClockwise und
  else if cameraName = "right" then rotateImage90Clockwise und
  else if cameraName = "back" then rotateImage180 und
  else und

/-- createSurroundViewParallel (lines 940-1053): empty-input guard, serial
fallback when the thread pool is not initialized, otherwise the four
per-camera tasks, resize to the same fixed section sizes and composition
onto the same 2280x2240 canvas - without the car-area decorations and
borders that the serial path draws. -/
def createSurroundViewParallel (poolInitialized : Bool) (be : VisionBackend)
    (st : CalibStore) (front left right back : Frame) : Frame :=
  if front.isEmpty || left.isEmpty || right.isEmpty || back.isEmpty then Frame.blank
  else if !poolInitialized then createSurroundView be st front left right back
  else
    let rf := resizeModel (processImageAsync be st front ("front")) 840 720
    let rl := resizeModel (processImageAsync be st left ("left")) 720 800
    let rr := resizeModel (processImageAsync be st right ("right")) 720 800
    let rb := resizeModel (processImageAsync be st back ("back")) 840 720
    { rows := 2240, cols := 2280, channels := 3,
      pix := fun y x => surroundBasePix rf rl rr rb y x }

/-- The channel-format step of preprocessImage (lines 111-121): 4-channel
and 1-channel rasters are converted to 3-channel (channel bookkeeping; the
cvtColor pixel math is a backend detail), any other channel count is
cloned unchanged. -/
def normalizeChannels (input : Frame) : Frame :=
  if input.channels = 4 then { input with channels := 3 }
  else if input.channels = 1 then { input with channels := 3 }
  else input

/-- preprocessImage (lines 111-130): channel normalization followed by a
downscale of rasters larger than 1920x1080 by the single factor
min(1920/cols, 1080/rows).  cv::resize derives the target size by rounding
cols*scale and rows*scale (cvRound; its half-to-even tie behavior differs
from `round` only at exact halves, which no embedded claim probes). -/
def preprocessImage (input : Frame) : Frame :=
  let output := normalizeChannels input
  if 1920 < output.cols ∨ 1080 < output.rows then
    let scale : ℚ := min (1920 / (output.cols : ℚ)) (1080 / (output.rows : ℚ))
    resizeModel output (round ((output.cols : ℚ) * scale)).toNat
      (round ((output.rows : ℚ) * scale)).toNat
  else output

/-! ### Extrinsic calibration loading -/

/-- Comma splitting of a character list, accumulating the current field. -/
def splitCommaAux : List Char → List Char → List String
  | [], acc => [String.mk acc.reverse]
  | c :: cs, acc =>
    if c = ',' then String.mk acc.reverse :: splitCommaAux cs []
    else splitCommaAux cs (c :: acc)

/-- The tokens produced by the getline(ss, token, ',') loop of
loadExtrinsicParameters: splitting on commas, except that a trailing empty
field is not produced (getline fails at end of string). -/
def csvTokens (line : String) : List String :=
  let ts := splitCommaAux line.toList []
  if ts.getLast? = some ("") then ts.dropLast else ts

/-- Numeric value of a digit list. -/
def natOfDigits (ds : List Char) : ℕ :=
  ds.foldl (fun n c => 10 * n + (c.toNat - 48)) 0

/-- Model of std::stof: skip leading whitespace, optional sign, then the
longest [digits][.digits] prefix; `none` (std::invalid_argument) when no
digit is consumed.  (Exponent/hex/infinity forms are not exercised by the
calibration tables and are outside this model.) -/
def stofQ (s : String) : Option ℚ :=
  let cs := s.toList.dropWhile Char.isWhitespace
  let signed : ℚ × List Char :=
    match cs with
    | c :: rest =>
      if c = '-' then (-1, rest) else if c = '+' then (1, rest) else (1, c :: rest)
    | [] => (1, [])
  let ints := signed.2.takeWhile Char.isDigit
  let rest2 := signed.2.dropWhile Char.isDigit
  let fracs : List Char :=
    match rest2 with
    | c :: rest => if c = '.' then rest.takeWhile Char.isDigit else []
    | [] => []
  if ints.isEmpty ∧ fracs.isEmpty then none
  else
    some (signed.1 *
      ((natOfDigits ints : ℚ) + (natOfDigits fracs : ℚ) / (10 ^ fracs.length)))

/-- The per-camera extrinsic state populated by loadExtrinsicParameters.
(The derived 4x4 transform is pure trigonometric arithmetic on the stored
rotation angles via the external libm cos/sin; the claims under test
concern which rows load, so the maps of positions and rotations are the
observable state.) -/
structure ExtrinsicState where
  cameraPositions : String → Option (ℚ × ℚ × ℚ)
  cameraRotations : String → Option (ℚ × ℚ × ℚ)

/-- The empty extrinsic state before any row is processed. -/
def ExtrinsicState.initial : ExtrinsicState :=
  { cameraPositions := fun _ => none, cameraRotations := fun _ => none }

/-- Map update for a string-keyed store. -/
def setEntry {α : Type} (m : String → Option α) (kname : String) (v : α) :
    String → Option α :=
  fun q => if q = kname then some v else m q

/-- One iteration of the row loop of loadExtrinsicParameters
(lines 627-689): rows with fewer than 7 comma-separated fields are
silently skipped; on a row with at least 7 fields the six numeric fields
go through std::stof, whose std::invalid_argument exception is not caught
anywhere in the function (modelled as `Except.error`). -/
def loadExtrinsicRow (st : ExtrinsicState) (line : String) :
    Except Unit ExtrinsicState :=
  let tokens := csvTokens line
  if 7 ≤ tokens.length then
    match stofQ (tokens.getD 1 ""), stofQ (tokens.getD 2 ""),
        stofQ (tokens.getD 3 ""), stofQ (tokens.getD 4 ""),
        stofQ (tokens.getD 5 ""), stofQ (tokens.getD 6 "") with
    | some px, some py, some pz, some rx, some ry, some rz =>
      let cameraName := tokens.getD 0 ""
      .ok { cameraPositions := setEntry st.cameraPositions cameraName (px, py, pz),
            cameraRotations := setEntry st.cameraRotations cameraName (rx, ry, rz) }
    | _, _, _, _, _, _ => .error ()
  else .ok st

/-- loadExtrinsicParameters over the data rows after the header line:
the row loop threaded through the mutable maps, with a stof exception
aborting the whole load. -/
def loadExtrinsicParameters (dataRows : List String) : Except Unit ExtrinsicState :=
  dataRows.foldlM loadExtrinsicRow ExtrinsicState.initial

/-- Whether the load ran to completion (the C++ function returning true)
rather than unwinding with an exception. -/
def loadSucceeded (r : Except Unit ExtrinsicState) : Bool :=
  match r with
  | .ok _ => true
  | .error _ => false

/-- Whether all six numeric fields of a row parse under std::stof. -/
def rowParses (line : String) : Bool :=
  let tokens := csvTokens line
  (stofQ (tokens.getD 1 "")).isSome && (stofQ (tokens.getD 2 "")).isSome &&
    (stofQ (tokens.getD 3 "")).isSome && (stofQ (tokens.getD 4 "")).isSome &&
    (stofQ (tokens.getD 5 "")).isSome && (stofQ (tokens.getD 6 "")).isSome

/-! ### Cylindrical panorama composition (createCylindricalSurroundView) -/

/-- The cubic weight = weight * weight * (3 - 2 * weight) smoothing used
for the angular blend factor. -/
def smoothstepQ (t : ℚ) : ℚ :=
  t * t * (3 - 2 * t)

/-- One CameraPlacement of createCylindricalSurroundView: the projected
image with its angular sector (degrees). -/
structure CameraPlacement where
  image : Frame
  startAngle : ℚ
  endAngle : ℚ
  radius : ℚ
  cname : String

/-- The in-sector test (lines 1702-1709), with the wrap-around case for a
sector such as 315 to 45. -/
def inSectorB (cam : CameraPlacement) (angle : ℚ) : Bool :=
  if cam.startAngle ≤ cam.endAngle then
    if cam.startAngle ≤ angle ∧ angle ≤ cam.endAngle then true else false
  else
    if cam.startAngle ≤ angle ∨ angle ≤ cam.endAngle then true else false

/-- fmod for a nonnegative dividend. -/
def qmod (a b : ℚ) : ℚ :=
  a - b * ⌊a / b⌋

/-- The sector center (lines 1712-1720), averaging start and end with
wrap-around handling. -/
def sectorCenterQ (cam : CameraPlacement) : ℚ :=
  if cam.startAngle ≤ cam.endAngle then (cam.startAngle + cam.endAngle) / 2
  else qmod ((cam.startAngle + cam.endAngle + 360) / 2) 360

/-- The signed angular offset from the sector center (lines 1723-1727),
folded into (-180, 180]. -/
def angleOffsetQ (angle center : ℚ) : ℚ :=
  let o := angle - center
  if 180 < o then o - 360 else if o < -180 then o + 360 else o

/-- The angular blend weight (lines 1776-1788): full weight 1 in the
sector interior, a clamped cubic smoothstep of (50 - |offset|)/20 once
|offset| exceeds sectorSize/2 - blendWidth = 30 (sectorSize 100,
blendWidth 20). -/
def angularWeightQ (offset : ℚ) : ℚ :=
  let sectorHalfWidth : ℚ := 100 / 2
  let blendWidth : ℚ := 20
  let distToCenter := |offset|
  if sectorHalfWidth - blendWidth < distToCenter then
    smoothstepQ (clamp01 ((sectorHalfWidth - distToCenter) / blendWidth))
  else 1

/-- The radial falloff weight (lines 1790-1798): a clamped linear ramp
(400 - d)/20 beyond distance 380 and (d - 80)/20 below distance 100,
otherwise 1. -/
def radialWeightQ (distance : ℚ) : ℚ :=
  if 380 < distance then clamp01 ((400 - distance) / 20)
  else if distance < 100 then clamp01 ((distance - 80) / 20)
  else 1

/-- Componentwise pixel scale. -/
def scalePix (s : ℚ) (p : Pix) : Pix :=
  (s * p.1, s * p.2.1, s * p.2.2)

/-- Componentwise pixel sum. -/
def addPix (p q : Pix) : Pix :=
  (p.1 + q.1, p.2.1 + q.2.1, p.2.2 + q.2.2)

/-- saturate_cast<uchar> applied to one accumulated float channel:
round to the nearest integer and clamp into 0..255. -/
def satCastQ (v : ℚ) : ℚ :=
  ((max 0 (min 255 (round v)) : ℤ) : ℚ)

/-- One camera's contribution at a canvas point of polar angle `angle`
(degrees) and radius `distance` (lines 1698-1806): the in-sector test, the
angle-offset to image-coordinate mapping (side cameras use the wider 0.45
horizontal coefficient and the 0.15 + 0.7 vertical band, front/back use
0.4 and 0.2 + 0.6), the bilinear sample, the angular-times-radial weight
and the weight > 0.01 accumulation gate.  Returns (weight * color,
weight), both zero when the camera does not contribute. -/
def cameraContribution (cam : CameraPlacement) (angle distance : ℚ) : Pix × ℚ :=
  if inSectorB cam angle then
    let offset := angleOffsetQ angle (sectorCenterQ cam)
    let normalizedOffset := offset / (100 / 2)
    let w := cam.image.cols
    let h := cam.image.rows
    let imgX : ℚ :=
      if cam.cname = "left" ∨ cam.cname = "right" then
        (w : ℚ) * (1/2 + (45/100) * normalizedOffset)
      else (w : ℚ) * (1/2 + (4/10) * normalizedOffset)
    let radialFactor := clamp01 ((distance - 80) / 320)
    let imgY : ℚ :=
      if cam.cname = "left" ∨ cam.cname = "right" then
        (h : ℚ) * (15/100 + (7/10) * radialFactor)
      else (h : ℚ) * (2/10 + (6/10) * radialFactor)
    if 0 ≤ imgX ∧ imgX < (w : ℚ) - 1 ∧ 0 ≤ imgY ∧ imgY < (h : ℚ) - 1 then
      let x0 := (⌊imgX⌋).toNat
      let y0 := (⌊imgY⌋).toNat
      let fx := imgX - x0
      let fy := imgY - y0
      let p00 := cam.image.pix y0 x0
      let p01 := cam.image.pix y0 (x0 + 1)
      let p10 := cam.image.pix (y0 + 1) x0
      let p11 := cam.image.pix (y0 + 1) (x0 + 1)
      let interpolated :=
        addPix (addPix (scalePix ((1 - fx) * (1 - fy)) p00)
                       (scalePix (fx * (1 - fy)) p01))
               (addPix (scalePix ((1 - fx) * fy) p10)
                       (scalePix (fx * fy) p11))
      let weight := angularWeightQ offset * radialWeightQ distance
      if 1/100 < weight then (scalePix weight interpolated, weight)
      else ((0, 0, 0), 0)
    else ((0, 0, 0), 0)
  else ((0, 0, 0), 0)

/-- The effective blend weight a camera receives at a canvas point,
including the annulus gate 80 < distance < 400 applied by the canvas loop
(line 1693). -/
def cameraContribWeight (cam : CameraPlacement) (angle distance : ℚ) : ℚ :=
  if distance < 400 ∧ 80 < distance then (cameraContribution cam angle distance).2
  else 0

/-- The canvas pixel of createCylindricalSurroundView at polar coordinates
(angle, distance) (lines 1683-1821): weighted accumulation over the
cameras, normalization when the total weight exceeds 0.01, otherwise the
zeros background (the pixel-to-polar conversion via the libm
atan2/sqrt happens per canvas pixel upstream of this kernel). -/
def cylCanvasPixelPolar (cams : List CameraPlacement) (angle distance : ℚ) : Pix :=
  if distance < 400 ∧ 80 < distance then
    let acc := cams.foldl
      (fun tc cam =>
        if cam.image.isEmpty then tc
        else
          let c := cameraContribution cam angle distance
          (addPix tc.1 c.1, tc.2 + c.2))
      ((0, 0, 0), 0)
    if 1/100 < acc.2 then
      let n := scalePix (1 / acc.2) acc.1
      (satCastQ n.1, satCastQ n.2.1, satCastQ n.2.2)
    else (0, 0, 0)
  else (0, 0, 0)

/-! ### Gap filling in createSeamlessSurroundView -/

/-- The neighborhood scan order of the gap-filling loops
(lines 1542-1552): dy from -15 to 15 (outer), dx from -15 to 15 (inner),
stopping at the first valid neighbor. -/
def gapSearchOffsets : List (ℤ × ℤ) :=
  (List.range 31).flatMap (fun i =>
    (List.range 31).map (fun j => ((i : ℤ) - 15, (j : ℤ) - 15)))

/-- The 0.001 weight threshold of the normalization/gap-fill pass,
written with mkRat so that concrete comparisons evaluate in the kernel. -/
def gapWeightEps : ℚ :=
  mkRat 1 1000

/-- Validity of a neighbor offset at gap pixel (y, x): inside the canvas
and carrying total weight above 0.001. -/
def gapNeighborValid (tw : ℕ → ℕ → ℚ) (hgt wdt y x : ℕ) (od : ℤ × ℤ) : Bool :=
  let ny := (y : ℤ) + od.1
  let nx := (x : ℤ) + od.2
  if 0 ≤ ny ∧ ny < (hgt : ℤ) ∧ 0 ≤ nx ∧ nx < (wdt : ℤ) ∧
      gapWeightEps < tw ny.toNat nx.toNat then true else false

/-- The neighbor search of the gap-filling branch: the first valid
neighbor in scan order, returning the current value of the result buffer
there.  (The C++ loop runs in place over the buffer being normalized;
`res` is the buffer state at the time the gap pixel is processed.) -/
def gapSearch (tw : ℕ → ℕ → ℚ) (res : ℕ → ℕ → Pix) (hgt wdt y x : ℕ) : Option Pix :=
  gapSearchOffsets.findSome? (fun od =>
    if gapNeighborValid tw hgt wdt y x od then
      some (res ((y : ℤ) + od.1).toNat ((x : ℤ) + od.2).toNat)
    else none)

/-- The color written at a negligible-weight pixel (lines 1533-1554): the
first valid neighbor's color, or the fixed dark fill (0.05, 0.05, 0.05)
when the 31x31 window holds no valid neighbor. -/
def gapFillColor (tw : ℕ → ℕ → ℚ) (res : ℕ → ℕ → Pix) (hgt wdt y x : ℕ) : Pix :=
  match gapSearch tw res hgt wdt y x with
  | some c => c
  | none => (mkRat 1 20, mkRat 1 20, mkRat 1 20)

/-- The per-pixel rule of the normalization/gap-fill pass
(lines 1527-1557): pixels with total weight above 0.001 are normalized,
the rest go through the gap fill. -/
def seamlessFinalPixel (tw : ℕ → ℕ → ℚ) (res : ℕ → ℕ → Pix) (hgt wdt y x : ℕ) : Pix :=
  if gapWeightEps < tw y x then scalePix (1 / tw y x) (res y x)
  else gapFillColor tw res hgt wdt y x

/-- The claim's reading of the gap fill, written from the spec sentence:
the color of the NEAREST already-filled pixel of the window (minimal
squared distance, the first such in scan order on ties). -/
def nearestFilledColor (tw : ℕ → ℕ → ℚ) (res : ℕ → ℕ → Pix) (hgt wdt y x : ℕ) :
    Option Pix :=
  let valids := gapSearchOffsets.filter (gapNeighborValid tw hgt wdt y x)
  (valids.foldl
    (fun best od =>
      let d2 := od.1 * od.1 + od.2 * od.2
      match best with
      | none => some (d2, od)
      | some b => if d2 < b.1 then some (d2, od) else best)
    none).map (fun b => res ((y : ℤ) + b.2.1).toNat ((x : ℤ) + b.2.2).toNat)

/-! ### Cylindrical coordinate maps over the reals

projectToCylindrical, cartesianToCylindrical and cylindricalToCartesian
(lines 1849-1915) compute with float atan2/sqrt/tan; the idealized
real-number semantics is the faithful shallow embedding of that
floating-point math.  std::atan2(x, f) is always called with the positive
focal length as second argument, where it equals arctan (x / f). -/

/-- A raster for the real-geometry section, indexed by integers so that
rounded source coordinates can be applied directly. -/
structure RFrame where
  rows : ℕ
  cols : ℕ
  pix : ℤ → ℤ → Pix

/-- Clamping of a real coordinate into [lo, hi]:
std::max(lo, std::min(hi, v)). -/
noncomputable def clampR (lo hi v : ℝ) : ℝ :=
  max lo (min hi v)

/-- cartesianToCylindrical (lines 1883-1903): the forward cylindrical map
with the |x| < 1e-6 safety perturbation and clamping of the source
coordinate into [0, 2*center]. -/
noncomputable def cartesianToCylindrical (f : ℝ) (c p : ℝ × ℝ) : ℝ × ℝ :=
  let x0 := p.1 - c.1
  let y0 := p.2 - c.2
  let x := if |x0| < 1 / 1000000 then 1 / 1000000 else x0
  let theta := Real.arctan (x / f)
  let h := y0 / Real.sqrt (x ^ 2 + f ^ 2) * f
  (clampR 0 (2 * c.1) (c.1 + f * theta), clampR 0 (2 * c.2) (c.2 + h))

/-- cylindricalToCartesian (lines 1906-1915): the inverse map. -/
noncomputable def cylindricalToCartesian (f : ℝ) (c q : ℝ × ℝ) : ℝ × ℝ :=
  let theta := (q.1 - c.1) / f
  let h := q.2 - c.2
  let x := f * Real.tan theta
  let y := h * Real.sqrt (x ^ 2 + f ^ 2) / f
  (c.1 + x, c.2 + y)

/-- projectToCylindrical (lines 1849-1880): empty guard, then a zeros
raster of the input size where each destination pixel (x, y) receives the
input pixel at the rounded source coordinate from cartesianToCylindrical
when that rounded coordinate lies inside the raster, and stays at the
zeros background otherwise. -/
noncomputable def projectToCylindrical (input : RFrame) (cameraName : String)
    (focalLength : ℝ) : RFrame :=
  if input.rows = 0 ∨ input.cols = 0 then { rows := 0, cols := 0, pix := fun _ _ => (0, 0, 0) }
  else
    { rows := input.rows, cols := input.cols,
      pix := fun y x =>
        if 0 ≤ y ∧ y < (input.rows : ℤ) ∧ 0 ≤ x ∧ x < (input.cols : ℤ) then
          let c : ℝ × ℝ := ((input.cols : ℝ) / 2, (input.rows : ℝ) / 2)
          let src := cartesianToCylindrical focalLength c ((x : ℝ), (y : ℝ))
          let srcX := round src.1
          let srcY := round src.2
          if 0 ≤ srcX ∧ srcX < (input.cols : ℤ) ∧ 0 ≤ srcY ∧ srcY < (input.rows : ℤ) then
            input.pix srcY srcX
          else (0, 0, 0)
        else (0, 0, 0) }

/-- The source coordinate exactly as the specification sentence states it:
(c.x + f * atan2(x - c.x, f), c.y + (y - c.y) * f / sqrt((x - c.x)^2 + f^2)),
before clamping. -/
noncomputable def specSourceCoord (f : ℝ) (c p : ℝ × ℝ) : ℝ × ℝ :=
  (c.1 + f * Real.arctan ((p.1 - c.1) / f),
   c.2 + (p.2 - c.2) * f / Real.sqrt ((p.1 - c.1) ^ 2 + f ^ 2))

/-- The destination-pixel rule as the specification sentence states it:
clamp the source coordinate to the image bounds, copy the source pixel,
leave pixels whose coordinate falls outside the bounds at zero. -/
noncomputable def specProjPix (input : RFrame) (f : ℝ) (y x : ℤ) : Pix :=
  let c : ℝ × ℝ := ((input.cols : ℝ) / 2, (input.rows : ℝ) / 2)
  let src := specSourceCoord f c ((x : ℝ), (y : ℝ))
  let sX := round (clampR 0 (2 * c.1) src.1)
  let sY := round (clampR 0 (2 * c.2) src.2)
  if 0 ≤ sX ∧ sX < (input.cols : ℤ) ∧ 0 ≤ sY ∧ sY < (input.rows : ℤ) then
    input.pix sY sX
  else (0, 0, 0)

/-! ### Concrete artifacts used by witnesses and counterexamples -/

/-- A vision backend whose undistortion routines succeed and keep the
frame (content of the corrected image is irrelevant to the witnessed
facts). -/
def idBackend : VisionBackend :=
  { fisheyeUndistortImage := fun fr _ _ _ => some fr,
    undistort := fun fr _ _ _ => some fr }

/-- A vision backend whose undistortion routines always throw. -/
def failBackend : VisionBackend :=
  { fisheyeUndistortImage := fun _ _ _ _ => none,
    undistort := fun _ _ _ _ => none }

/-- A concrete intrinsic matrix. -/
def demoK : Mat3 :=
  { a00 := 400, a01 := 0, a02 := 320, a10 := 0, a11 := 300, a12 := 240,
    a20 := 0, a21 := 0, a22 := 1 }

/-- Concrete distortion coefficients. -/
def demoD : Vec4 :=
  { k1 := 1/10, k2 := 0, k3 := 0, k4 := 0 }

/-- A calibration store with the same parameters loaded for all four
cameras, xi = 0.9 (fisheye path) and the loader's default identity
scale/shift. -/
def demoStore : CalibStore :=
  { cameraMatrices := fun _ => some demoK,
    distortionCoeffs := fun _ => some demoD,
    xiParams := fun _ => 9/10,
    scaleXY := fun _ => (1, 1),
    shiftXY := fun _ => (0, 0) }

/-- A calibration store on the standard-undistortion path (xi = 0.2). -/
def demoStoreLowXi : CalibStore :=
  { demoStore with xiParams := fun _ => 2/10 }

/-- An 8x8 constant mid-gray test frame. -/
def demoFrame : Frame :=
  { rows := 8, cols := 8, channels := 3, pix := fun _ _ => (50, 60, 70) }

/-- An 8x8 all-black test frame (near-black validation trigger). -/
def blackFrame : Frame :=
  { rows := 8, cols := 8, channels := 3, pix := fun _ _ => (0, 0, 0) }

/-- A 100x100 constant frame standing for a projected camera image. -/
def img100 : Frame :=
  { rows := 100, cols := 100, channels := 3, pix := fun _ _ => (100, 100, 100) }

/-- The front camera placement of createCylindricalSurroundView
(sector 225 to 315, radius 350). -/
def frontPlacement : CameraPlacement :=
  { image := img100, startAngle := 225, endAngle := 315, radius := 350, cname := "front" }

/-- The left camera placement (sector 315 to 45, wrapping). -/
def leftPlacement : CameraPlacement :=
  { image := img100, startAngle := 315, endAngle := 45, radius := 350, cname := "left" }

/-- The back camera placement (sector 45 to 135). -/
def backPlacement : CameraPlacement :=
  { image := img100, startAngle := 45, endAngle := 135, radius := 350, cname := "back" }

/-- The right camera placement (sector 135 to 225). -/
def rightPlacement : CameraPlacement :=
  { image := img100, startAngle := 135, endAngle := 225, radius := 350, cname := "right" }

/-- The four camera placements of createCylindricalSurroundView
(lines 1670-1675). -/
def stdPlacements : List CameraPlacement :=
  [frontPlacement, leftPlacement, backPlacement, rightPlacement]

/-- Gap-fill demonstration weights on a 5x5 canvas: pixels (0,0) and
(2,3) are filled, everything else has zero weight. -/
def tw0 : ℕ → ℕ → ℚ :=
  fun y x => if (y = 0 ∧ x = 0) ∨ (y = 2 ∧ x = 3) then 1 else 0

/-- Gap-fill demonstration colors: red at (0,0), blue at (2,3). -/
def res0 : ℕ → ℕ → Pix :=
  fun y x => if y = 0 ∧ x = 0 then (1, 0, 0) else if y = 2 ∧ x = 3 then (0, 0, 1) else (0, 0, 0)

/-- A 10x10 two-channel raster (a legal CV_8UC2 cv::Mat). -/
def twoChannelFrame : Frame :=
  { rows := 10, cols := 10, channels := 2, pix := fun _ _ => (0, 0, 0) }

/-- A 3840x2160 four-channel raster for the preprocessing witness. -/
def bigFrame : Frame :=
  { rows := 2160, cols := 3840, channels := 4, pix := fun _ _ => (0, 0, 0) }

/-- A 4x4 constant raster for the real-geometry witnesses. -/
def rframe4 : RFrame :=
  { rows := 4, cols := 4, pix := fun _ _ => (1, 2, 3) }

/-! ## Theorems -/

/-- The backend-call trace of afterUndistortStage is the trace it was
given: the post-undistortion stage performs no further backend calls. -/
theorem afterUndistortStage_trace (st : CalibStore) (input und : Frame)
    (cameraName : String) (calls : List BackendCall) :
    (afterUndistortStage st input und cameraName calls).2 = calls := by
  simp only [afterUndistortStage]
  split
  · rfl
  · split <;> rfl

/-- Claim C1: in both the serial and the parallel surround-view pipeline,
any empty input frame makes the invocation return the empty raster - no
exception escapes and no partial panorama is assembled from the remaining
frames. -/
theorem C1_empty_input_is_fatal (be : VisionBackend) (st : CalibStore)
    (front left right back : Frame)
    (h : front.isEmpty = true ∨ left.isEmpty = true ∨ right.isEmpty = true ∨
      back.isEmpty = true) :
    createSurroundView be st front left right back = Frame.blank ∧
    ∀ poolInitialized,
      createSurroundViewParallel poolInitialized be st front left right back =
        Frame.blank := by
  have hg : (front.isEmpty || left.isEmpty || right.isEmpty || back.isEmpty) = true := by
    rcases h with h | h | h | h <;> simp [h]
  refine ⟨?_, fun poolInitialized => ?_⟩
  · unfold createSurroundView
    simp [hg]
  · unfold createSurroundViewParallel
    simp [hg]

/-- Witness for C1 at a concrete input: an empty front frame forces the
empty result in both pipelines. -/
theorem C1_empty_input_is_fatal_witness :
    Frame.blank.isEmpty = true ∧
    createSurroundView idBackend demoStore Frame.blank demoFrame demoFrame demoFrame =
      Frame.blank ∧
    createSurroundViewParallel true idBackend demoStore Frame.blank demoFrame demoFrame
      demoFrame = Frame.blank :=
  ⟨rfl,
   (C1_empty_input_is_fatal idBackend demoStore Frame.blank demoFrame demoFrame demoFrame
     (Or.inl rfl)).1,
   (C1_empty_input_is_fatal idBackend demoStore Frame.blank demoFrame demoFrame demoFrame
     (Or.inl rfl)).2 true⟩

/-- Claim C2, counterexample: on four identical valid frames, the serial
pipeline and the parallel pipeline do not have identical external
behavior - at canvas pixel (800, 800) the serial path paints the car-area
fill (40,40,40) while the parallel path leaves the zeros background, so
the degraded sequential path differs from the parallel path by more than
latency. -/
theorem C2_serial_parallel_pixel_differs :
    (createSurroundView idBackend demoStore demoFrame demoFrame demoFrame
      demoFrame).pix 800 800 = (40, 40, 40) ∧
    (createSurroundViewParallel true idBackend demoStore demoFrame demoFrame demoFrame
      demoFrame).pix 800 800 = (0, 0, 0) ∧
    ((40, 40, 40) : Pix) ≠ ((0, 0, 0) : Pix) := by
  refine ⟨?_, ?_, by norm_num⟩
  · norm_num [createSurroundView, Frame.isEmpty, demoFrame, serialOverlayPix,
      surroundBasePix, lineCovers, segPointDist2, dist2, clamp01, arrowCovers, inRect,
      min_def, max_def]
  · norm_num [createSurroundViewParallel, Frame.isEmpty, demoFrame, surroundBasePix, inRect]

/-- Canvas dimensions of the serial pipeline on non-empty inputs. -/
theorem createSurroundView_dims (be : VisionBackend) (st : CalibStore)
    (front left right back : Frame)
    (hg : (front.isEmpty || left.isEmpty || right.isEmpty || back.isEmpty) = false) :
    (createSurroundView be st front left right back).rows = 2240 ∧
    (createSurroundView be st front left right back).cols = 2280 := by
  unfold createSurroundView
  rw [if_neg (by simp [hg])]
  exact ⟨rfl, rfl⟩

/-- Canvas dimensions of the parallel pipeline on non-empty inputs with
the pool initialized. -/
theorem createSurroundViewParallel_dims (be : VisionBackend) (st : CalibStore)
    (front left right back : Frame)
    (hg : (front.isEmpty || left.isEmpty || right.isEmpty || back.isEmpty) = false) :
    (createSurroundViewParallel true be st front left right back).rows = 2240 ∧
    (createSurroundViewParallel true be st front left right back).cols = 2280 := by
  unfold createSurroundViewParallel
  rw [if_neg (by simp [hg]), if_neg (by simp)]
  exact ⟨rfl, rfl⟩

/-- Claim C2, amended: on four non-empty inputs the serial pipeline and
the parallel pipeline both produce non-empty canvases of the identical
fixed dimensions 2280x2240; their pixel contents agree on the four camera
regions but differ in the decoration pixels (car-area fill, car indicator,
arrow, section borders) that only the serial path draws. -/
theorem C2_serial_parallel_same_dims (be : VisionBackend) (st : CalibStore)
    (front left right back : Frame)
    (hf : front.isEmpty = false) (hl : left.isEmpty = false)
    (hr : right.isEmpty = false) (hb : back.isEmpty = false) :
    (createSurroundView be st front left right back).rows = 2240 ∧
    (createSurroundView be st front left right back).cols = 2280 ∧
    (createSurroundViewParallel true be st front left right back).rows = 2240 ∧
    (createSurroundViewParallel true be st front left right back).cols = 2280 ∧
    (createSurroundView be st front left right back).isEmpty = false ∧
    (createSurroundViewParallel true be st front left right back).isEmpty = false := by
  have hg : (front.isEmpty || left.isEmpty || right.isEmpty || back.isEmpty) = false := by
    simp [hf, hl, hr, hb]
  have hs := createSurroundView_dims be st front left right back hg
  have hp := createSurroundViewParallel_dims be st front left right back hg
  refine ⟨hs.1, hs.2, hp.1, hp.2, ?_, ?_⟩
  · simp [Frame.isEmpty, hs.1, hs.2]
  · simp [Frame.isEmpty, hp.1, hp.2]

/-- Witness for the amended C2 at concrete valid inputs. -/
theorem C2_serial_parallel_same_dims_witness :
    demoFrame.isEmpty = false ∧
    (createSurroundView idBackend demoStore demoFrame demoFrame demoFrame
      demoFrame).rows = 2240 ∧
    (createSurroundViewParallel true idBackend demoStore demoFrame demoFrame demoFrame
      demoFrame).cols = 2280 :=
  ⟨rfl,
   (C2_serial_parallel_same_dims idBackend demoStore demoFrame demoFrame demoFrame
     demoFrame rfl rfl rfl rfl).1,
   (C2_serial_parallel_same_dims idBackend demoStore demoFrame demoFrame demoFrame
     demoFrame rfl rfl rfl rfl).2.2.2.1⟩

/-- Claim C10, counterexample: preprocessImage does not always produce a
3-channel raster - a 2-channel input falls into the clone branch and
keeps its 2 channels. -/
theorem C10_two_channel_passthrough :
    (preprocessImage twoChannelFrame).channels = 2 ∧ (2 : ℕ) ≠ 3 :=
  ⟨rfl, by decide⟩

/-- Claim C10, amended: preprocessImage converts 4-channel and 1-channel
rasters to 3 channels and passes any other channel count through
unchanged; a raster wider than 1920 or taller than 1080 is downscaled by
the single uniform factor min(1920/cols, 1080/rows) (target size rounded
per axis), after which both dimensions fit within 1920x1080, while
smaller rasters keep their dimensions. -/
theorem C10_preprocess_shape (f : Frame) (hne : f.isEmpty = false) :
    (preprocessImage f).channels =
      (if f.channels = 4 ∨ f.channels = 1 then 3 else f.channels) ∧
    (f.cols ≤ 1920 → f.rows ≤ 1080 →
      (preprocessImage f).cols = f.cols ∧ (preprocessImage f).rows = f.rows) ∧
    (1920 < f.cols ∨ 1080 < f.rows →
      (preprocessImage f).cols =
        (round ((f.cols : ℚ) * min (1920 / (f.cols : ℚ)) (1080 / (f.rows : ℚ)))).toNat ∧
      (preprocessImage f).rows =
        (round ((f.rows : ℚ) * min (1920 / (f.cols : ℚ)) (1080 / (f.rows : ℚ)))).toNat) ∧
    (preprocessImage f).cols ≤ 1920 ∧ (preprocessImage f).rows ≤ 1080 := by
  have hrpos : 0 < f.rows := by
    rcases Nat.eq_zero_or_pos f.rows with h | h
    · exfalso
      simp [Frame.isEmpty, h] at hne
    · exact h
  have hcpos : 0 < f.cols := by
    rcases Nat.eq_zero_or_pos f.cols with h | h
    · exfalso
      simp [Frame.isEmpty, h] at hne
    · exact h
  have hcolsQ : (0 : ℚ) < (f.cols : ℚ) := by exact_mod_cast hcpos
  have hrowsQ : (0 : ℚ) < (f.rows : ℚ) := by exact_mod_cast hrpos
  have hsc : min (1920 / (f.cols : ℚ)) (1080 / (f.rows : ℚ)) ≤ 1920 / (f.cols : ℚ) :=
    min_le_left _ _
  have hsr : min (1920 / (f.cols : ℚ)) (1080 / (f.rows : ℚ)) ≤ 1080 / (f.rows : ℚ) :=
    min_le_right _ _
  have hscale0 : 0 ≤ min (1920 / (f.cols : ℚ)) (1080 / (f.rows : ℚ)) := by
    apply le_min <;> positivity
  have hcbound : (f.cols : ℚ) * min (1920 / (f.cols : ℚ)) (1080 / (f.rows : ℚ)) ≤ 1920 := by
    calc (f.cols : ℚ) * min (1920 / (f.cols : ℚ)) (1080 / (f.rows : ℚ))
        ≤ (f.cols : ℚ) * (1920 / (f.cols : ℚ)) := by
          exact mul_le_mul_of_nonneg_left hsc (le_of_lt hcolsQ)
      _ = 1920 := by field_simp
  have hrbound : (f.rows : ℚ) * min (1920 / (f.cols : ℚ)) (1080 / (f.rows : ℚ)) ≤ 1080 := by
    calc (f.rows : ℚ) * min (1920 / (f.cols : ℚ)) (1080 / (f.rows : ℚ))
        ≤ (f.rows : ℚ) * (1080 / (f.rows : ℚ)) := by
          exact mul_le_mul_of_nonneg_left hsr (le_of_lt hrowsQ)
      _ = 1080 := by field_simp
  have hroundc :
      (round ((f.cols : ℚ) * min (1920 / (f.cols : ℚ)) (1080 / (f.rows : ℚ)))).toNat ≤ 1920 := by
    have h1 : round ((f.cols : ℚ) * min (1920 / (f.cols : ℚ)) (1080 / (f.rows : ℚ))) ≤
        round (1920 : ℚ) := by
      rw [round_eq, round_eq]
      exact Int.floor_le_floor (by linarith)
    have h2 : round (1920 : ℚ) = 1920 := by
      norm_num [round_eq]
    rw [Int.toNat_le]
    rw [h2] at h1
    exact_mod_cast h1
  have hroundr :
      (round ((f.rows : ℚ) * min (1920 / (f.cols : ℚ)) (1080 / (f.rows : ℚ)))).toNat ≤ 1080 := by
    have h1 : round ((f.rows : ℚ) * min (1920 / (f.cols : ℚ)) (1080 / (f.rows : ℚ))) ≤
        round (1080 : ℚ) := by
      rw [round_eq, round_eq]
      exact Int.floor_le_floor (by linarith)
    have h2 : round (1080 : ℚ) = 1080 := by
      norm_num [round_eq]
    rw [Int.toNat_le]
    rw [h2] at h1
    exact_mod_cast h1
  have hnc : (normalizeChannels f).cols = f.cols := by
    unfold normalizeChannels
    split
    · rfl
    · split <;> rfl
  have hnr : (normalizeChannels f).rows = f.rows := by
    unfold normalizeChannels
    split
    · rfl
    · split <;> rfl
  have hnch : (normalizeChannels f).channels =
      (if f.channels = 4 ∨ f.channels = 1 then 3 else f.channels) := by
    unfold normalizeChannels
    by_cases h4 : f.channels = 4
    · simp [h4]
    · by_cases h1 : f.channels = 1
      · simp [h4, h1]
      · simp [h4, h1]
  unfold preprocessImage
  by_cases hbig : 1920 < (normalizeChannels f).cols ∨ 1080 < (normalizeChannels f).rows
  · rw [if_pos hbig]
    rw [hnc, hnr] at hbig
    refine ⟨?_, ?_, ?_, ?_, ?_⟩
    · simpa [resizeModel] using hnch
    · intro h1 h2
      rcases hbig with h | h
      · omega
      · omega
    · intro _
      constructor
      · simp [resizeModel, hnc, hnr]
      · simp [resizeModel, hnc, hnr]
    · simpa [resizeModel, hnc, hnr] using hroundc
    · simpa [resizeModel, hnc, hnr] using hroundr
  · rw [if_neg hbig]
    rw [hnc, hnr] at hbig
    push_neg at hbig
    refine ⟨hnch, ?_, ?_, ?_, ?_⟩
    · intro _ _
      exact ⟨hnc, hnr⟩
    · intro h
      rcases h with h | h
      · omega
      · omega
    · rw [hnc]
      exact hbig.1
    · rw [hnr]
      exact hbig.2

/-- Witness for the amended C10 at a concrete oversized 4-channel input:
3840x2160 downscales by factor 1/2 to 1920x1080 with 3 channels. -/
theorem C10_preprocess_shape_witness :
    bigFrame.isEmpty = false ∧
    (preprocessImage bigFrame).channels = 3 ∧
    (preprocessImage bigFrame).cols ≤ 1920 := by
  refine ⟨rfl, ?_, ?_⟩
  · have h := (C10_preprocess_shape bigFrame rfl).1
    simpa [bigFrame] using h
  · exact (C10_preprocess_shape bigFrame rfl).2.2.2.1

/-- Claim C3: with intrinsics loaded, undistortion branches on xi.  When
xi > 0.5 the backend is called with the target matrix whose fx and fy are
scaled by 0.45, first through the fisheye routine and - exactly when that
call fails - again through the standard routine with the same reduced
matrix; when xi <= 0.5 a single standard call is made with fx and fy
scaled by 0.6. -/
theorem C3_xi_branching (be : VisionBackend) (st : CalibStore) (input : Frame)
    (cameraName : String) (k : Mat3) (d : Vec4)
    (hne : input.isEmpty = false)
    (hk : st.cameraMatrices cameraName = some k)
    (hd : st.distortionCoeffs cameraName = some d) :
    (1/2 < st.xiParams cameraName →
      (undistortWithYAMLParamsT be st input cameraName).2 =
        [.fisheyeCall k d (scaleFxFy k (45/100)) true] ∨
      ∃ ok, (undistortWithYAMLParamsT be st input cameraName).2 =
        [.fisheyeCall k d (scaleFxFy k (45/100)) false,
         .standardCall k d (scaleFxFy k (45/100)) ok]) ∧
    (st.xiParams cameraName ≤ 1/2 →
      ∃ ok, (undistortWithYAMLParamsT be st input cameraName).2 =
        [.standardCall k d (scaleFxFy k (6/10)) ok]) := by
  unfold undistortWithYAMLParamsT
  rw [hne, hk, hd]
  simp only [Bool.false_eq_true, if_false]
  constructor
  · intro hxi
    rw [if_pos hxi]
    cases hfe : be.fisheyeUndistortImage input k d (scaleFxFy k (45/100)) with
    | some und =>
      left
      exact afterUndistortStage_trace st input und cameraName _
    | none =>
      right
      cases hst : be.undistort input k d (scaleFxFy k (45/100)) with
      | some und =>
        exact ⟨true, afterUndistortStage_trace st input und cameraName _⟩
      | none => exact ⟨false, rfl⟩
  · intro hxi
    rw [if_neg (not_lt.mpr hxi)]
    cases hst : be.undistort input k d (scaleFxFy k (6/10)) with
    | some und =>
      exact ⟨true, afterUndistortStage_trace st input und cameraName _⟩
    | none => exact ⟨false, rfl⟩

/-- Witness for C3 at a concrete store with xi = 0.9 and a succeeding
backend: the trace is the single fisheye call with the 0.45-scaled
matrix. -/
theorem C3_xi_branching_witness :
    demoFrame.isEmpty = false ∧
    demoStore.cameraMatrices ("front") = some demoK ∧
    (1/2 : ℚ) < demoStore.xiParams ("front") ∧
    ((undistortWithYAMLParamsT idBackend demoStore demoFrame ("front")).2 =
        [.fisheyeCall demoK demoD (scaleFxFy demoK (45/100)) true] ∨
      ∃ ok, (undistortWithYAMLParamsT idBackend demoStore demoFrame ("front")).2 =
        [.fisheyeCall demoK demoD (scaleFxFy demoK (45/100)) false,
         .standardCall demoK demoD (scaleFxFy demoK (45/100)) ok]) :=
  ⟨rfl, rfl, by norm_num [demoStore],
   (C3_xi_branching idBackend demoStore demoFrame ("front") demoK demoD rfl rfl rfl).1
     (by norm_num [demoStore])⟩

/-- The first component of afterUndistortStage is either the untouched
input or a frame whose validation luminance is at least 5. -/
theorem afterUndistortStage_result (st : CalibStore) (input und : Frame)
    (cameraName : String) (calls : List BackendCall) :
    (afterUndistortStage st input und cameraName calls).1 = input ∨
    5 ≤ lumaMean (afterUndistortStage st input und cameraName calls).1 := by
  simp only [afterUndistortStage]
  split
  · exact Or.inl rfl
  · split
    · exact Or.inl rfl
    · next h => exact Or.inr (not_lt.mp h)

/-- Claim C4: undistortion recovers locally.  The result is either the
pre-undistortion input unchanged or a corrected frame whose mean
luminance passed the near-black threshold 5 (so a near-black correction
is replaced by the input), and whenever the last backend call of the
invocation raised an exception the input is returned unchanged; the stage
is total, never fatal for the pipeline. -/
theorem C4_undistort_local_recovery (be : VisionBackend) (st : CalibStore)
    (input : Frame) (cameraName : String) :
    ((undistortWithYAMLParamsT be st input cameraName).1 = input ∨
      5 ≤ lumaMean (undistortWithYAMLParamsT be st input cameraName).1) ∧
    (∀ c, (undistortWithYAMLParamsT be st input cameraName).2.getLast? = some c →
      c.failed = true → (undistortWithYAMLParamsT be st input cameraName).1 = input) := by
  unfold undistortWithYAMLParamsT
  by_cases hne : input.isEmpty
  · rw [hne]
    simp
  · rw [Bool.not_eq_true] at hne
    rw [hne]
    simp only [Bool.false_eq_true, if_false]
    cases hk : st.cameraMatrices cameraName with
    | none => simp
    | some k =>
      cases hd : st.distortionCoeffs cameraName with
      | none => simp
      | some d =>
        dsimp only
        by_cases hxi : 1/2 < st.xiParams cameraName
        · rw [if_pos hxi]
          cases hfe : be.fisheyeUndistortImage input k d (scaleFxFy k (45/100)) with
          | some und =>
            refine ⟨afterUndistortStage_result st input und cameraName _, ?_⟩
            intro c hlast hcfail
            rw [afterUndistortStage_trace] at hlast
            simp only [List.getLast?_singleton, Option.some_inj] at hlast
            rw [← hlast] at hcfail
            simp [BackendCall.failed] at hcfail
          | none =>
            cases hst : be.undistort input k d (scaleFxFy k (45/100)) with
            | some und =>
              refine ⟨afterUndistortStage_result st input und cameraName _, ?_⟩
              intro c hlast hcfail
              rw [afterUndistortStage_trace] at hlast
              simp only [List.getLast?] at hlast
              rw [Option.some_inj] at hlast
              rw [← hlast] at hcfail
              simp [BackendCall.failed] at hcfail
            | none => exact ⟨Or.inl rfl, fun _ _ _ => rfl⟩
        · rw [if_neg hxi]
          cases hst : be.undistort input k d (scaleFxFy k (6/10)) with
          | some und =>
            refine ⟨afterUndistortStage_result st input und cameraName _, ?_⟩
            intro c hlast hcfail
            rw [afterUndistortStage_trace] at hlast
            simp only [List.getLast?_singleton, Option.some_inj] at hlast
            rw [← hlast] at hcfail
            simp [BackendCall.failed] at hcfail
          | none => exact ⟨Or.inl rfl, fun _ _ _ => rfl⟩

/-- Witness for C4: with an always-throwing backend the undistortion of a
concrete frame returns that frame unchanged. -/
theorem C4_undistort_local_recovery_witness :
    (undistortWithYAMLParamsT failBackend demoStore demoFrame ("front")).1 = demoFrame :=
  (C4_undistort_local_recovery failBackend demoStore demoFrame ("front")).2
    (.standardCall demoK demoD (scaleFxFy demoK (45/100)) false)
    (by norm_num [undistortWithYAMLParamsT, failBackend, demoStore, demoFrame, Frame.isEmpty])
    (by rfl)

/-- Claim C9, counterexample: a row with at least 7 comma-separated
fields whose numeric field is malformed makes loadExtrinsicParameters
unwind with the uncaught std::stof exception - the row is not skipped and
the load does not succeed. -/
theorem C9_malformed_row_aborts_load :
    7 ≤ (csvTokens ("front,abc,0.0,0.0,0.0,0.0,0.0")).length ∧
    loadSucceeded (loadExtrinsicParameters ["front,abc,0.0,0.0,0.0,0.0,0.0"]) = false := by
  exact ⟨by decide, by decide⟩

/-- One step of the row loop on a loadable row list: the fold stays
successful, already-present entries persist, and every well-formed row of
the list ends up loaded. -/
theorem loadExtrinsic_fold_ok (rows : List String) :
    ∀ st0 : ExtrinsicState,
      (∀ r ∈ rows, (csvTokens r).length < 7 ∨ rowParses r = true) →
      ∃ st, rows.foldlM loadExtrinsicRow st0 = .ok st ∧
        (∀ n, (st0.cameraPositions n).isSome = true →
          (st.cameraPositions n).isSome = true) ∧
        (∀ r ∈ rows, 7 ≤ (csvTokens r).length → rowParses r = true →
          (st.cameraPositions ((csvTokens r).getD 0 "")).isSome = true) := by
  induction rows with
  | nil =>
    intro st0 _
    exact ⟨st0, rfl, fun n h => h, fun r hr => absurd hr (List.not_mem_nil r)⟩
  | cons r rs ih =>
    intro st0 hrows
    have hr := hrows r (List.mem_cons_self r rs)
    have hstep : ∃ st1, loadExtrinsicRow st0 r = .ok st1 ∧
        (∀ n, (st0.cameraPositions n).isSome = true →
          (st1.cameraPositions n).isSome = true) ∧
        (7 ≤ (csvTokens r).length → rowParses r = true →
          (st1.cameraPositions ((csvTokens r).getD 0 "")).isSome = true) := by
      by_cases hlen : 7 ≤ (csvTokens r).length
      · have hp : rowParses r = true := by
          rcases hr with h | h
          · omega
          · exact h
        simp only [rowParses, Bool.and_eq_true] at hp
        obtain ⟨⟨⟨⟨⟨h1, h2⟩, h3⟩, h4⟩, h5⟩, h6⟩ := hp
        rw [Option.isSome_iff_exists] at h1 h2 h3 h4 h5 h6
        obtain ⟨v1, hv1⟩ := h1
        obtain ⟨v2, hv2⟩ := h2
        obtain ⟨v3, hv3⟩ := h3
        obtain ⟨v4, hv4⟩ := h4
        obtain ⟨v5, hv5⟩ := h5
        obtain ⟨v6, hv6⟩ := h6
        have hrow : loadExtrinsicRow st0 r = .ok
            { cameraPositions :=
                setEntry st0.cameraPositions ((csvTokens r).getD 0 ("")) (v1, v2, v3),
              cameraRotations :=
                setEntry st0.cameraRotations ((csvTokens r).getD 0 ("")) (v4, v5, v6) } := by
          simp only [loadExtrinsicRow, if_pos hlen, hv1, hv2, hv3, hv4, hv5, hv6]
        refine ⟨_, hrow, ?_, ?_⟩
        · intro n hn
          simp only [setEntry]
          split
          · rfl
          · exact hn
        · intro _ _
          simp [setEntry]
      · refine ⟨st0, ?_, fun n h => h, fun h => absurd h hlen⟩
        simp only [loadExtrinsicRow, if_neg hlen]
    obtain ⟨st1, hst1, hmono1, hload1⟩ := hstep
    have hrest : ∀ x ∈ rs, (csvTokens x).length < 7 ∨ rowParses x = true :=
      fun x hx => hrows x (List.mem_cons_of_mem r hx)
    obtain ⟨st, hfold, hmono, hload⟩ := ih st1 hrest
    refine ⟨st, ?_, ?_, ?_⟩
    · rw [List.foldlM_cons, hst1]
      exact hfold
    · exact fun n hn => hmono n (hmono1 n hn)
    · intro x hx hxlen hxp
      rcases List.mem_cons.mp hx with hx | hx
      · subst hx
        exact hmono _ (hload1 hxlen hxp)
      · exact hload x hx hxlen hxp

/-- Claim C9, amended: rows with fewer than 7 comma-separated fields are
skipped and the load still succeeds; on a table whose rows are each
either short (skipped) or fully numeric, the load succeeds and every
well-formed row's camera is loaded.  (A row with 7 or more fields and a
malformed numeric field instead aborts the whole load - see the
counterexample.) -/
theorem C9_partial_success (rows : List String)
    (h : ∀ r ∈ rows, (csvTokens r).length < 7 ∨ rowParses r = true) :
    loadSucceeded (loadExtrinsicParameters rows) = true ∧
    ∀ r ∈ rows, 7 ≤ (csvTokens r).length → rowParses r = true →
      ∃ st, loadExtrinsicParameters rows = .ok st ∧
        (st.cameraPositions ((csvTokens r).getD 0 "")).isSome = true := by
  obtain ⟨st, hfold, _, hload⟩ := loadExtrinsic_fold_ok rows ExtrinsicState.initial h
  constructor
  · rw [loadExtrinsicParameters, hfold]
    rfl
  · intro r hr hlen hp
    exact ⟨st, by rw [loadExtrinsicParameters, hfold], hload r hr hlen hp⟩

/-- Witness for the amended C9: a table with one well-formed row and one
short malformed row loads successfully and carries the well-formed
camera. -/
theorem C9_partial_success_witness :
    (∀ r ∈ ["front,1.5,-2.25,0.5,10,20,30", "left,oops"],
      (csvTokens r).length < 7 ∨ rowParses r = true) ∧
    loadSucceeded
      (loadExtrinsicParameters ["front,1.5,-2.25,0.5,10,20,30", "left,oops"]) = true :=
  ⟨by decide,
   (C9_partial_success ["front,1.5,-2.25,0.5,10,20,30", "left,oops"] (by decide)).1⟩

/-- The cubic smoothstep is at least 3/20 on [1/4, 1/2]. -/
theorem smoothstepQ_lower (t : ℚ) (h1 : 1/4 ≤ t) (h2 : t ≤ 1/2) :
    3/20 ≤ smoothstepQ t := by
  unfold smoothstepQ
  nlinarith [sq_nonneg (t - 1/4), sq_nonneg (t - 1/2), mul_nonneg (sub_nonneg.mpr h1) (sub_nonneg.mpr h1)]

/-- Just inside the front sector boundary 315, the front camera weight at
radius 240 is the angular smoothstep of (5 + delta)/20: the sector gate
cuts the taper off at offset 45 although the taper reaches zero only at
offset 50. -/
theorem frontWeight_inside_boundary (δ : ℚ) (h0 : 0 < δ) (h1 : δ ≤ 1/100) :
    cameraContribWeight frontPlacement (315 - δ) 240 =
      smoothstepQ ((5 + δ) / 20) := by
  have hsec : sectorCenterQ frontPlacement = 270 := by
    norm_num [sectorCenterQ, frontPlacement]
  have hoff : angleOffsetQ (315 - δ) 270 = 45 - δ := by
    unfold angleOffsetQ
    rw [if_neg (by intro h; linarith), if_neg (by intro h; linarith)]
    ring
  have hin : inSectorB frontPlacement (315 - δ) = true := by
    unfold inSectorB frontPlacement
    dsimp only
    rw [if_pos (by norm_num)]
    exact if_pos ⟨by linarith, by linarith⟩
  have hang : angularWeightQ (45 - δ) = smoothstepQ ((5 + δ) / 20) := by
    unfold angularWeightQ
    rw [abs_of_pos (by linarith)]
    rw [if_pos (by linarith)]
    congr 1
    unfold clamp01
    rw [min_eq_right (by linarith), max_eq_right (by linarith)]
    ring_nf
  have hrad : radialWeightQ 240 = 1 := by norm_num [radialWeightQ]
  have hrf : clamp01 ((240 - 80) / 320) = 1/2 := by norm_num [clamp01]
  have hS := smoothstepQ_lower ((5 + δ) / 20) (by linarith) (by linarith)
  unfold cameraContribWeight
  rw [if_pos (by norm_num)]
  simp only [cameraContribution, hin, if_true, hsec, hoff, hang, hrad, hrf]
  simp only [frontPlacement, img100, Nat.cast_ofNat]
  have hside := eq_false (show ¬(("front" = "left") ∨ ("front" = "right")) by decide)
  simp only [hside, if_false]
  split
  · split
    · simp
    · next hg =>
      exact absurd (by nlinarith : (1:ℚ)/100 < smoothstepQ ((5 + δ)/20) * 1) hg
  · next hb =>
    exfalso
    apply hb
    refine ⟨by nlinarith, by nlinarith, by nlinarith, by nlinarith⟩

/-- Just outside the front sector boundary 315, the front camera weight is
zero: the camera no longer contributes at all. -/
theorem frontWeight_outside_boundary (δ : ℚ) (h0 : 0 < δ) (h1 : δ ≤ 1/100) :
    cameraContribWeight frontPlacement (315 + δ) 240 = 0 := by
  have hin : inSectorB frontPlacement (315 + δ) = false := by
    unfold inSectorB frontPlacement
    dsimp only
    rw [if_pos (by norm_num)]
    rw [if_neg (by intro h; linarith [h.2])]
  unfold cameraContribWeight
  rw [if_pos (by norm_num)]
  simp only [cameraContribution, hin]
  simp

/-- Claim C7, counterexample: the per-camera blend weight is not
continuous across a sector boundary and its radial factor is not a
smoothstep.  Arbitrarily close to the front sector boundary (315 degrees,
radius 240) the weight stays at least 3/20 inside and is exactly 0
outside, so no constant C can bound the two-sided difference by C * delta;
and at radius 395 the radial factor is the linear ramp value 1/4, not the
smoothstep value 5/32 that the claim's formula would give. -/
theorem C7_weight_discontinuous_at_boundary :
    3/20 ≤ cameraContribWeight frontPlacement (315 - 1/1000) 240 ∧
    cameraContribWeight frontPlacement (315 + 1/1000) 240 = 0 ∧
    ¬ (∃ C : ℚ, ∀ δ : ℚ, 0 < δ → δ ≤ 1 →
        |cameraContribWeight frontPlacement (315 - δ) 240 -
          cameraContribWeight frontPlacement (315 + δ) 240| ≤ C * δ) ∧
    radialWeightQ 395 ≠ smoothstepQ (clamp01 ((400 - 395) / 20)) := by
  have hlow : ∀ δ : ℚ, 0 < δ → δ ≤ 1/100 →
      3/20 ≤ cameraContribWeight frontPlacement (315 - δ) 240 := by
    intro δ h0 h1
    rw [frontWeight_inside_boundary δ h0 h1]
    exact smoothstepQ_lower _ (by linarith) (by linarith)
  refine ⟨hlow (1/1000) (by norm_num) (by norm_num),
    frontWeight_outside_boundary (1/1000) (by norm_num) (by norm_num), ?_, ?_⟩
  · rintro ⟨C, hC⟩
    have hM1 : (1 : ℚ) ≤ max C 1 := le_max_right C 1
    have hMpos : (0 : ℚ) < max C 1 := lt_of_lt_of_le one_pos hM1
    have hδpos : (0 : ℚ) < 1 / (1000 * max C 1) := by positivity
    have hδsmall : 1 / (1000 * max C 1) ≤ 1/1000 := by
      rw [div_le_div_iff (by positivity) (by norm_num)]
      nlinarith
    have h100 : 1 / (1000 * max C 1) ≤ 1/100 := le_trans hδsmall (by norm_num)
    have hS := hlow (1 / (1000 * max C 1)) hδpos h100
    have hout := frontWeight_outside_boundary (1 / (1000 * max C 1)) hδpos h100
    have h := hC (1 / (1000 * max C 1)) hδpos (le_trans h100 (by norm_num))
    rw [hout, sub_zero, abs_of_nonneg (by linarith)] at h
    have hCd : C * (1 / (1000 * max C 1)) ≤ max C 1 * (1 / (1000 * max C 1)) :=
      mul_le_mul_of_nonneg_right (le_max_left C 1) hδpos.le
    have hMd : max C 1 * (1 / (1000 * max C 1)) = 1/1000 := by
      field_simp
      ring
    rw [hMd] at hCd
    linarith
  · norm_num [radialWeightQ, clamp01, smoothstepQ]

/-- Claim C7, amended: whenever a camera contributes at a canvas point,
its blend weight is exactly the angular taper (1 in the sector interior,
the cubic smoothstep of (50 - |offset|)/20 in the nominal blend zone)
times the linear radial ramp near the radii 80..100 and 380..400; but
because the sectors span only 90 degrees (half-width 45) while that taper
reaches zero at offset 50, the weight is discontinuous at each sector
boundary: for every small delta it is at least 3/20 at boundary - delta
and exactly 0 at boundary + delta, a fixed jump rather than an O(delta)
difference. -/
theorem C7_weight_structure :
    (∀ (cam : CameraPlacement) (angle distance : ℚ),
      cameraContribWeight cam angle distance = 0 ∨
      cameraContribWeight cam angle distance =
        angularWeightQ (angleOffsetQ angle (sectorCenterQ cam)) * radialWeightQ distance) ∧
    (∀ δ : ℚ, 0 < δ → δ ≤ 1/100 →
      3/20 ≤ cameraContribWeight frontPlacement (315 - δ) 240 ∧
      cameraContribWeight frontPlacement (315 + δ) 240 = 0) := by
  constructor
  · intro cam angle distance
    unfold cameraContribWeight
    split
    · simp only [cameraContribution]
      repeat' split
      all_goals first
        | (left; rfl)
        | (right; rfl)
    · left; rfl
  · intro δ h0 h1
    constructor
    · rw [frontWeight_inside_boundary δ h0 h1]
      exact smoothstepQ_lower _ (by linarith) (by linarith)
    · exact frontWeight_outside_boundary δ h0 h1

/-- Witness for the amended C7 at delta = 1/1000. -/
theorem C7_weight_structure_witness :
    (0 : ℚ) < 1/1000 ∧ (1/1000 : ℚ) ≤ 1/100 ∧
    3/20 ≤ cameraContribWeight frontPlacement (315 - 1/1000) 240 ∧
    cameraContribWeight frontPlacement (315 + 1/1000) 240 = 0 :=
  ⟨by norm_num, by norm_num,
   (C7_weight_structure.2 (1/1000) (by norm_num) (by norm_num)).1,
   (C7_weight_structure.2 (1/1000) (by norm_num) (by norm_num)).2⟩

/-- findSome? returning a value means the list splits at a first element
on which the function fires, everything before it failing. -/
theorem findSome?_eq_some_first {α β : Type} (f : α → Option β) (b : β) :
    ∀ l : List α, l.findSome? f = some b →
      ∃ l1 a l2, l = l1 ++ a :: l2 ∧ f a = some b ∧ ∀ a2 ∈ l1, f a2 = none := by
  intro l
  induction l with
  | nil =>
    intro h
    simp [List.findSome?_nil] at h
  | cons a l ih =>
    intro h
    rw [List.findSome?_cons] at h
    cases hfa : f a with
    | some c =>
      simp only [hfa] at h
      refine ⟨[], a, l, by simp, ?_, by simp⟩
      rw [hfa]
      exact h
    | none =>
      simp only [hfa] at h
      obtain ⟨l1, a1, l2, heq, hfa1, hnone⟩ := ih h
      refine ⟨a :: l1, a1, l2, by rw [heq]; rfl, hfa1, ?_⟩
      intro a2 h2
      rcases List.mem_cons.mp h2 with h2 | h2
      · rw [h2]
        exact hfa
      · exact hnone a2 h2

/-- The front camera does not pass the 0.01 weight gate at polar point
(270, 80.1): its radial ramp is 1/200 there. -/
theorem frontContribution_at_inner_edge :
    cameraContribution frontPlacement 270 (801/10) = ((0, 0, 0), 0) := by
  have hsec : sectorCenterQ frontPlacement = 270 := by
    norm_num [sectorCenterQ, frontPlacement]
  have hoff : angleOffsetQ 270 270 = 0 := by norm_num [angleOffsetQ]
  have hin : inSectorB frontPlacement 270 = true := by
    unfold inSectorB frontPlacement
    dsimp only
    rw [if_pos (by norm_num)]
    exact if_pos (by norm_num)
  have hang : angularWeightQ 0 = 1 := by norm_num [angularWeightQ]
  have hrad : radialWeightQ (801/10) = 1/200 := by
    norm_num [radialWeightQ, clamp01, min_def, max_def]
  have hrf : clamp01 ((801/10 - 80) / 320) = 1/3200 := by
    norm_num [clamp01, min_def, max_def]
  simp only [cameraContribution, hin, if_true, hsec, hoff, hang, hrad, hrf]
  simp only [frontPlacement, img100, Nat.cast_ofNat]
  have hside := eq_false (show ¬(("front" = "left") ∨ ("front" = "right")) by decide)
  simp only [hside, if_false]
  rw [if_pos (by norm_num)]
  rw [if_neg (by norm_num)]

/-- The left camera sector does not contain angle 270. -/
theorem leftContribution_at_270 :
    cameraContribution leftPlacement 270 (801/10) = ((0, 0, 0), 0) := by
  have hin : inSectorB leftPlacement 270 = false := by
    unfold inSectorB leftPlacement
    dsimp only
    rw [if_neg (by norm_num)]
    exact if_neg (by norm_num)
  simp [cameraContribution, hin]

/-- The back camera sector does not contain angle 270. -/
theorem backContribution_at_270 :
    cameraContribution backPlacement 270 (801/10) = ((0, 0, 0), 0) := by
  have hin : inSectorB backPlacement 270 = false := by
    unfold inSectorB backPlacement
    dsimp only
    rw [if_pos (by norm_num)]
    exact if_neg (by norm_num)
  simp [cameraContribution, hin]

/-- The right camera sector does not contain angle 270. -/
theorem rightContribution_at_270 :
    cameraContribution rightPlacement 270 (801/10) = ((0, 0, 0), 0) := by
  have hin : inSectorB rightPlacement 270 = false := by
    unfold inSectorB rightPlacement
    dsimp only
    rw [if_pos (by norm_num)]
    exact if_neg (by norm_num)
  simp [cameraContribution, hin]

set_option maxRecDepth 100000 in
/-- Claim C8, counterexample: gap pixels are not filled from the NEAREST
already-filled pixel.  On a 5x5 canvas with filled pixels (0,0) (red) and
(2,3) (blue), the gap at (2,2) is filled with red - the first filled
pixel in the row-major scan of the 31x31 window - although blue at
distance 1 is the nearest.  Moreover the cylindrical compositor performs
no gap fill at all: inside its annulus, at polar point (270, 80.1), the
total weight is below the 0.01 gate and the canvas pixel stays at the
zeros background instead of a neighbor color or the dark fill. -/
theorem C8_gap_fill_not_nearest :
    gapFillColor tw0 res0 5 5 2 2 = ((1, 0, 0) : Pix) ∧
    nearestFilledColor tw0 res0 5 5 2 2 = some ((0, 0, 1) : Pix) ∧
    ((1, 0, 0) : Pix) ≠ ((0, 0, 1) : Pix) ∧
    cylCanvasPixelPolar stdPlacements 270 (801/10) = ((0, 0, 0) : Pix) ∧
    ((0, 0, 0) : Pix) ≠ (mkRat 1 20, mkRat 1 20, mkRat 1 20) := by
  refine ⟨by decide, by decide, by decide, ?_, by decide⟩
  have hf2 : frontPlacement.image.isEmpty = false := rfl
  have hl2 : leftPlacement.image.isEmpty = false := rfl
  have hb2 : backPlacement.image.isEmpty = false := rfl
  have hr2 : rightPlacement.image.isEmpty = false := rfl
  unfold cylCanvasPixelPolar
  rw [if_pos (by norm_num)]
  simp only [stdPlacements, List.foldl_cons, List.foldl_nil]
  simp only [hf2, hl2, hb2, hr2, Bool.false_eq_true, if_false,
    frontContribution_at_inner_edge, leftContribution_at_270,
    backContribution_at_270, rightContribution_at_270]
  norm_num [addPix]

/-- Claim C8, amended: in createSeamlessSurroundView, every canvas pixel
with total weight at most 0.001 is filled by scanning the 31x31
neighborhood in row-major order and copying the FIRST valid
(weight > 0.001, in-bounds) pixel's current buffer color - not the
nearest one - and with the fixed dark color (0.05, 0.05, 0.05) when the
window holds no valid pixel.  (The cylindrical compositor has no gap fill
at all; its zero-weight pixels keep the zeros background.) -/
theorem C8_gap_fill_scan_order (tw : ℕ → ℕ → ℚ) (res : ℕ → ℕ → Pix)
    (hgt wdt y x : ℕ) :
    (tw y x ≤ gapWeightEps →
      seamlessFinalPixel tw res hgt wdt y x = gapFillColor tw res hgt wdt y x) ∧
    (gapSearch tw res hgt wdt y x = none →
      gapFillColor tw res hgt wdt y x = (mkRat 1 20, mkRat 1 20, mkRat 1 20)) ∧
    (∀ c, gapSearch tw res hgt wdt y x = some c →
      ∃ l1 od l2, gapSearchOffsets = l1 ++ od :: l2 ∧
        gapNeighborValid tw hgt wdt y x od = true ∧
        c = res ((y : ℤ) + od.1).toNat ((x : ℤ) + od.2).toNat ∧
        ∀ od2 ∈ l1, gapNeighborValid tw hgt wdt y x od2 = false) := by
  refine ⟨?_, ?_, ?_⟩
  · intro hle
    unfold seamlessFinalPixel
    rw [if_neg (not_lt.mpr hle)]
  · intro hnone
    unfold gapFillColor
    rw [hnone]
  · intro c hsome
    unfold gapSearch at hsome
    obtain ⟨l1, od, l2, heq, hod, hnone⟩ := findSome?_eq_some_first _ c _ hsome
    refine ⟨l1, od, l2, heq, ?_, ?_, ?_⟩
    · by_contra hval
      rw [Bool.not_eq_true] at hval
      rw [hval] at hod
      simp at hod
    · by_cases hval : gapNeighborValid tw hgt wdt y x od = true
      · rw [if_pos hval] at hod
        exact (Option.some_inj.mp hod).symm
      · rw [Bool.not_eq_true] at hval
        rw [hval] at hod
        simp at hod
    · intro od2 h2
      have := hnone od2 h2
      by_contra hval
      rw [Bool.not_eq_false] at hval
      rw [if_pos hval] at this
      simp at this

/-- Witness for the amended C8 at the concrete 5x5 gap configuration. -/
theorem C8_gap_fill_scan_order_witness :
    tw0 2 2 ≤ gapWeightEps ∧
    seamlessFinalPixel tw0 res0 5 5 2 2 = gapFillColor tw0 res0 5 5 2 2 :=
  ⟨by decide, (C8_gap_fill_scan_order tw0 res0 5 5 2 2).1 (by decide)⟩

/-- arctan is bounded by its argument on the nonnegative reals. -/
theorem arctan_le_self (u : ℝ) (hu : 0 ≤ u) : Real.arctan u ≤ u := by
  have h0 : 0 ≤ Real.arctan u := by
    have h := Real.arctan_strictMono.monotone hu
    rwa [Real.arctan_zero] at h
  calc Real.arctan u ≤ Real.tan (Real.arctan u) :=
        Real.le_tan h0 (Real.arctan_lt_pi_div_two u)
    _ = u := Real.tan_arctan u

/-- Clamping is the identity inside the interval. -/
theorem clampR_eq_self (lo hi v : ℝ) (h1 : lo ≤ v) (h2 : v ≤ hi) :
    clampR lo hi v = v := by
  unfold clampR
  rw [min_eq_right h2, max_eq_right h1]

/-- A real within 1/2 of an integer rounds to that integer. -/
theorem round_eq_of_abs_sub_lt (m : ℤ) (v : ℝ) (h : |v - (m : ℝ)| < 1/2) :
    round v = m := by
  rw [round_eq, Int.floor_eq_iff]
  rw [abs_lt] at h
  push_cast
  constructor <;> linarith

/-- sqrt(e^2 + f^2) is at most f + e for nonnegative e, f. -/
theorem sqrt_sq_add_le (e f : ℝ) (he : 0 ≤ e) (hf : 0 ≤ f) :
    Real.sqrt (e ^ 2 + f ^ 2) ≤ f + e := by
  have h := Real.sqrt_le_sqrt (show e ^ 2 + f ^ 2 ≤ (f + e) ^ 2 by nlinarith [mul_nonneg he hf])
  rwa [Real.sqrt_sq (by linarith)] at h

/-- sqrt(e^2 + f^2) is at least f for nonnegative f. -/
theorem le_sqrt_sq_add (e f : ℝ) (hf : 0 ≤ f) :
    f ≤ Real.sqrt (e ^ 2 + f ^ 2) := by
  have h := Real.sqrt_le_sqrt (show f ^ 2 ≤ e ^ 2 + f ^ 2 by nlinarith [sq_nonneg e])
  rwa [Real.sqrt_sq hf] at h

/-- Away from the 1e-6 perturbation band, the code's forward cylindrical
map is exactly the specification's source-coordinate formula followed by
the clamp. -/
theorem cartesianToCylindrical_eq_spec (f : ℝ) (c p : ℝ × ℝ)
    (h : ¬ |p.1 - c.1| < 1/1000000) :
    cartesianToCylindrical f c p =
      (clampR 0 (2 * c.1) (specSourceCoord f c p).1,
       clampR 0 (2 * c.2) (specSourceCoord f c p).2) := by
  simp only [cartesianToCylindrical, specSourceCoord]
  rw [if_neg h]
  have hy : (p.2 - c.2) / Real.sqrt ((p.1 - c.1) ^ 2 + f ^ 2) * f =
      (p.2 - c.2) * f / Real.sqrt ((p.1 - c.1) ^ 2 + f ^ 2) := by
    ring
  rw [hy]

/-- Claim C6: for points strictly inside the projected region (the
perturbation band avoided, both clamped coordinates inside their range),
composing the forward and inverse cylindrical maps is exactly the
identity - the floating tolerance of the claim is 0 in the idealized real
semantics. -/
theorem C6_roundtrip (f : ℝ) (c p : ℝ × ℝ) (hf : 0 < f)
    (hx : 1/1000000 ≤ |p.1 - c.1|)
    (h1 : 0 ≤ c.1 + f * Real.arctan ((p.1 - c.1) / f))
    (h2 : c.1 + f * Real.arctan ((p.1 - c.1) / f) ≤ 2 * c.1)
    (h3 : 0 ≤ c.2 + (p.2 - c.2) / Real.sqrt ((p.1 - c.1) ^ 2 + f ^ 2) * f)
    (h4 : c.2 + (p.2 - c.2) / Real.sqrt ((p.1 - c.1) ^ 2 + f ^ 2) * f ≤ 2 * c.2) :
    cylindricalToCartesian f c (cartesianToCylindrical f c p) = p := by
  have hfne : f ≠ 0 := ne_of_gt hf
  have hs : 0 < Real.sqrt ((p.1 - c.1) ^ 2 + f ^ 2) :=
    lt_of_lt_of_le hf (le_sqrt_sq_add _ _ hf.le)
  have hsne : Real.sqrt ((p.1 - c.1) ^ 2 + f ^ 2) ≠ 0 := ne_of_gt hs
  simp only [cartesianToCylindrical, cylindricalToCartesian]
  rw [if_neg (not_lt.mpr hx)]
  rw [clampR_eq_self _ _ _ h1 h2, clampR_eq_self _ _ _ h3 h4]
  have htheta : (c.1 + f * Real.arctan ((p.1 - c.1) / f) - c.1) / f =
      Real.arctan ((p.1 - c.1) / f) := by
    field_simp
  rw [htheta, Real.tan_arctan]
  have hxval : f * ((p.1 - c.1) / f) = p.1 - c.1 := by
    field_simp
  rw [hxval]
  have hyval : c.2 + (p.2 - c.2) / Real.sqrt ((p.1 - c.1) ^ 2 + f ^ 2) * f - c.2 =
      (p.2 - c.2) / Real.sqrt ((p.1 - c.1) ^ 2 + f ^ 2) * f := by
    ring
  rw [hyval]
  have hyfin : (p.2 - c.2) / Real.sqrt ((p.1 - c.1) ^ 2 + f ^ 2) * f *
      Real.sqrt ((p.1 - c.1) ^ 2 + f ^ 2) / f = p.2 - c.2 := by
    field_simp
  rw [hyfin]
  have hfst : c.1 + (p.1 - c.1) = p.1 := by ring
  have hsnd : c.2 + (p.2 - c.2) = p.2 := by ring
  rw [hfst, hsnd]

/-- Witness for C6 at f = 650, center (2000, 2000), p = (2100, 2000). -/
theorem C6_roundtrip_witness :
    (0 : ℝ) < 650 ∧
    cylindricalToCartesian 650 ((2000 : ℝ), (2000 : ℝ))
      (cartesianToCylindrical 650 ((2000 : ℝ), (2000 : ℝ)) ((2100 : ℝ), (2000 : ℝ))) =
      ((2100 : ℝ), (2000 : ℝ)) := by
  have harc0 : 0 ≤ Real.arctan ((100 : ℝ) / 650) := by
    have h := Real.arctan_strictMono.monotone (show (0:ℝ) ≤ 100/650 by norm_num)
    rwa [Real.arctan_zero] at h
  have harcpi : Real.arctan ((100 : ℝ) / 650) < Real.pi / 2 :=
    Real.arctan_lt_pi_div_two _
  have hpi : Real.pi < 3.15 := Real.pi_lt_d2
  refine ⟨by norm_num, ?_⟩
  apply C6_roundtrip 650 ((2000 : ℝ), (2000 : ℝ)) ((2100 : ℝ), (2000 : ℝ)) (by norm_num)
  · rw [show ((2100:ℝ), (2000:ℝ)).1 - ((2000:ℝ), (2000:ℝ)).1 = 100 by norm_num]
    rw [abs_of_nonneg (by norm_num : (0:ℝ) ≤ 100)]
    norm_num
  · simp only
    rw [show (2100:ℝ) - 2000 = 100 by norm_num]
    nlinarith [harc0]
  · simp only
    rw [show (2100:ℝ) - 2000 = 100 by norm_num]
    nlinarith [harcpi, hpi]
  · simp only
    norm_num
  · simp only
    norm_num

/-- Row-coordinate bound for the center-column perturbation: with the
slightly enlarged denominator s (between f and f + eps), the perturbed
row coordinate rows/2 + w stays inside [0, rows] and within 1/2 of the
true row. -/
theorem center_row_perturbation_bound (rows yR f s w eps : ℝ)
    (hrows : 0 < rows) (hy0 : 0 ≤ yR) (hyr : yR < rows)
    (hf : 0 < f) (heps : 0 < eps)
    (hs_ge : f ≤ s) (hs_le : s ≤ f + eps)
    (hws : w * s = (yR - rows/2) * f)
    (hsmall : rows * eps < f) :
    0 ≤ rows/2 + w ∧ rows/2 + w ≤ rows ∧ |rows/2 + w - yR| < 1/2 := by
  have hs_pos : 0 < s := lt_of_lt_of_le hf hs_ge
  have hsf0 : 0 ≤ s - f := by linarith
  have hsfe : s - f ≤ eps := by linarith
  rcases le_or_lt (rows/2) yR with hcase | hcase
  · have hd0 : 0 ≤ yR - rows/2 := by linarith
    have hdle : yR - rows/2 ≤ rows/2 := by linarith
    have hw0 : 0 ≤ w := by nlinarith [mul_nonneg hd0 hf.le]
    have hwle : w ≤ yR - rows/2 := by nlinarith [mul_nonneg hd0 hsf0]
    have hprod : (yR - rows/2 - w) * s = (yR - rows/2) * (s - f) := by
      rw [sub_mul, hws]
      ring
    have hbd1 : (yR - rows/2) * (s - f) ≤ rows/2 * eps :=
      mul_le_mul hdle hsfe hsf0 (by linarith)
    have hbd2 : (yR - rows/2 - w) * f ≤ (yR - rows/2 - w) * s :=
      mul_le_mul_of_nonneg_left hs_ge (by linarith)
    have hgap : yR - rows/2 - w < 1/2 := by nlinarith [hbd1, hbd2, hprod]
    refine ⟨by linarith, by linarith, ?_⟩
    rw [abs_lt]
    constructor <;> linarith
  · have hd0 : 0 ≤ rows/2 - yR := by linarith
    have hdle : rows/2 - yR ≤ rows/2 := by linarith
    have hw0 : w ≤ 0 := by nlinarith [mul_nonneg hd0 hf.le]
    have hwge : yR - rows/2 ≤ w := by nlinarith [mul_nonneg hd0 hsf0]
    have hprod : (w - (yR - rows/2)) * s = (rows/2 - yR) * (s - f) := by
      rw [sub_mul, hws]
      ring
    have hbd1 : (rows/2 - yR) * (s - f) ≤ rows/2 * eps :=
      mul_le_mul hdle hsfe hsf0 (by linarith)
    have hbd2 : (w - (yR - rows/2)) * f ≤ (w - (yR - rows/2)) * s :=
      mul_le_mul_of_nonneg_left hs_ge (by linarith)
    have hgap : w - (yR - rows/2) < 1/2 := by nlinarith [hbd1, hbd2, hprod]
    refine ⟨by linarith, by linarith, ?_⟩
    rw [abs_lt]
    constructor <;> linarith

set_option maxHeartbeats 1600000 in
/-- Claim C5: projectToCylindrical keeps the raster dimensions, and every
in-range destination pixel receives exactly the pixel the specification
formula prescribes: source = (c.x + f*atan2(x-c.x, f),
c.y + (y-c.y)*f/sqrt((x-c.x)^2 + f^2)), clamped to the bounds, rounded,
copied when inside the raster and left at the zeros background otherwise.
The code's 1e-6 perturbation at the exact center column changes the
source coordinate by less than 1e-6, which rounding absorbs, so the
pixel-level rule is the specification's one at every pixel. -/
theorem C5_projection_formula (input : RFrame) (cameraName : String) (f : ℝ)
    (hr : 0 < input.rows) (hc : 0 < input.cols) (hf : 0 < f)
    (hsmall : (input.rows : ℝ) * (1/1000000) < f) :
    (projectToCylindrical input cameraName f).rows = input.rows ∧
    (projectToCylindrical input cameraName f).cols = input.cols ∧
    ∀ y x : ℤ, 0 ≤ y → y < (input.rows : ℤ) → 0 ≤ x → x < (input.cols : ℤ) →
      (projectToCylindrical input cameraName f).pix y x = specProjPix input f y x := by
  have hne : ¬(input.rows = 0 ∨ input.cols = 0) := by omega
  have hfne : f ≠ 0 := ne_of_gt hf
  refine ⟨?_, ?_, ?_⟩
  · unfold projectToCylindrical
    rw [if_neg hne]
  · unfold projectToCylindrical
    rw [if_neg hne]
  · intro y x hy0 hyr hx0 hxc
    have hyRa : (0:ℝ) ≤ (y:ℝ) := by exact_mod_cast hy0
    have hyRb : (y:ℝ) < (input.rows:ℝ) := by exact_mod_cast hyr
    have hxRa : (0:ℝ) ≤ (x:ℝ) := by exact_mod_cast hx0
    have hxRb : (x:ℝ) < (input.cols:ℝ) := by exact_mod_cast hxc
    unfold projectToCylindrical
    rw [if_neg hne]
    dsimp only
    rw [if_pos ⟨hy0, hyr, hx0, hxc⟩]
    unfold specProjPix
    dsimp only
    by_cases htweak : |(x:ℝ) - (input.cols:ℝ)/2| < 1/1000000
    · -- The perturbation fires: the pixel sits exactly on the center
      -- column of an even-width raster.
      have hkey : 2 * x = (input.cols : ℤ) := by
        have hlin : 2*(x:ℝ) - (input.cols:ℝ) = 2*((x:ℝ) - (input.cols:ℝ)/2) := by ring
        have hx2 : |2*(x:ℝ) - (input.cols:ℝ)| < 1 := by
          rw [hlin, abs_mul]
          rw [show |(2:ℝ)| = 2 by norm_num]
          nlinarith [abs_nonneg ((x:ℝ) - (input.cols:ℝ)/2)]
        have hcast : ((2*x - (input.cols:ℤ) : ℤ) : ℝ) = 2*(x:ℝ) - (input.cols:ℝ) := by
          push_cast
          ring
        have habs : |((2*x - (input.cols:ℤ) : ℤ) : ℝ)| < 1 := by
          rw [hcast]
          exact hx2
        have habsz : |2*x - (input.cols:ℤ)| < 1 := by exact_mod_cast habs
        rw [abs_lt] at habsz
        omega
      have hxcx : (input.cols:ℝ)/2 = (x:ℝ) := by
        have hcast2 : ((2*x : ℤ) : ℝ) = ((input.cols : ℤ) : ℝ) := by
          exact_mod_cast congrArg (fun z : ℤ => (z : ℝ)) hkey
        push_cast at hcast2
        linarith
      have hx1 : 1 ≤ x := by omega
      have hx1R : (1:ℝ) ≤ (x:ℝ) := by exact_mod_cast hx1
      have hrowsR : (0:ℝ) < (input.rows:ℝ) := by exact_mod_cast hr
      -- Code-side source coordinate with the perturbation applied.
      have hcode : cartesianToCylindrical f ((input.cols:ℝ)/2, (input.rows:ℝ)/2)
          ((x:ℝ), (y:ℝ)) =
          (clampR 0 (2 * ((input.cols:ℝ)/2))
            ((input.cols:ℝ)/2 + f * Real.arctan ((1/1000000) / f)),
           clampR 0 (2 * ((input.rows:ℝ)/2))
            ((input.rows:ℝ)/2 + ((y:ℝ) - (input.rows:ℝ)/2) /
              Real.sqrt ((1/1000000) ^ 2 + f ^ 2) * f)) := by
        simp only [cartesianToCylindrical]
        rw [if_pos htweak]
      rw [hcode]
      simp only [specSourceCoord]
      rw [hxcx]
      -- Column: both the code and the specification coordinate round to x.
      have harc0 : 0 < Real.arctan ((1/1000000) / f) := by
        have h := Real.arctan_strictMono (show (0:ℝ) < (1/1000000) / f by positivity)
        rwa [Real.arctan_zero] at h
      have harcle : f * Real.arctan ((1/1000000) / f) ≤ 1/1000000 := by
        have h := arctan_le_self ((1/1000000) / f) (by positivity)
        calc f * Real.arctan ((1/1000000) / f) ≤ f * ((1/1000000) / f) :=
              mul_le_mul_of_nonneg_left h hf.le
          _ = 1/1000000 := by
              field_simp
              ring
      have harcpos : 0 < f * Real.arctan ((1/1000000) / f) := mul_pos hf harc0
      have hA : round (clampR 0 (2 * (x:ℝ))
          ((x:ℝ) + f * Real.arctan ((1/1000000) / f))) = x := by
        rw [clampR_eq_self _ _ _ (by nlinarith) (by nlinarith)]
        apply round_eq_of_abs_sub_lt
        rw [abs_of_nonneg (by nlinarith)]
        nlinarith
      -- Row: the code-side value is within 1/2 of y and inside the range.
      have hs_ge : f ≤ Real.sqrt ((1/1000000) ^ 2 + f ^ 2) :=
        le_sqrt_sq_add _ _ hf.le
      have hs_le : Real.sqrt ((1/1000000) ^ 2 + f ^ 2) ≤ f + 1/1000000 :=
        sqrt_sq_add_le _ _ (by norm_num) hf.le
      have hs_pos : 0 < Real.sqrt ((1/1000000) ^ 2 + f ^ 2) := lt_of_lt_of_le hf hs_ge
      have hws : (((y:ℝ) - (input.rows:ℝ)/2) /
          Real.sqrt ((1/1000000) ^ 2 + f ^ 2) * f) *
          Real.sqrt ((1/1000000) ^ 2 + f ^ 2) =
          ((y:ℝ) - (input.rows:ℝ)/2) * f := by
        field_simp
        ring
      have hbounds := center_row_perturbation_bound (input.rows:ℝ) (y:ℝ) f
        (Real.sqrt ((1/1000000) ^ 2 + f ^ 2))
        (((y:ℝ) - (input.rows:ℝ)/2) / Real.sqrt ((1/1000000) ^ 2 + f ^ 2) * f)
        (1/1000000) hrowsR hyRa hyRb hf (by norm_num) hs_ge hs_le hws hsmall
      have hB : round (clampR 0 (2 * ((input.rows:ℝ)/2))
          ((input.rows:ℝ)/2 + ((y:ℝ) - (input.rows:ℝ)/2) /
            Real.sqrt ((1/1000000) ^ 2 + f ^ 2) * f)) = y := by
        rw [clampR_eq_self _ _ _ hbounds.1 (by linarith [hbounds.2.1])]
        exact round_eq_of_abs_sub_lt y _ hbounds.2.2
      -- Specification-side source coordinate at the center column.
      have hCinner : (x:ℝ) + f * Real.arctan (((x:ℝ) - (x:ℝ)) / f) = (x:ℝ) := by
        rw [sub_self, zero_div, Real.arctan_zero, mul_zero, add_zero]
      have hC : round (clampR 0 (2 * (x:ℝ))
          ((x:ℝ) + f * Real.arctan (((x:ℝ) - (x:ℝ)) / f))) = x := by
        rw [hCinner, clampR_eq_self _ _ _ (by linarith) (by linarith)]
        exact round_intCast x
      have hDinner : (input.rows:ℝ)/2 + ((y:ℝ) - (input.rows:ℝ)/2) * f /
          Real.sqrt (((x:ℝ) - (x:ℝ)) ^ 2 + f ^ 2) = (y:ℝ) := by
        rw [sub_self]
        rw [show (0:ℝ) ^ 2 + f ^ 2 = f ^ 2 by ring]
        rw [Real.sqrt_sq hf.le]
        field_simp
        ring
      have hD : round (clampR 0 (2 * ((input.rows:ℝ)/2))
          ((input.rows:ℝ)/2 + ((y:ℝ) - (input.rows:ℝ)/2) * f /
            Real.sqrt (((x:ℝ) - (x:ℝ)) ^ 2 + f ^ 2))) = y := by
        rw [hDinner, clampR_eq_self _ _ _ (by linarith) (by linarith)]
        exact round_intCast y
      rw [hA, hB, hC, hD]
    · -- No perturbation: the code coordinate is the specification
      -- formula followed by the clamp.
      rw [cartesianToCylindrical_eq_spec f _ _ htweak]

/-- Witness for C5 at a concrete 4x4 raster with f = 650, including one
concrete pixel of the conclusion. -/
theorem C5_projection_formula_witness :
    0 < rframe4.rows ∧ (0:ℝ) < 650 ∧ ((rframe4.rows : ℝ) * (1/1000000) < 650) ∧
    (projectToCylindrical rframe4 ("front") 650).rows = rframe4.rows ∧
    (projectToCylindrical rframe4 ("front") 650).cols = rframe4.cols ∧
    (projectToCylindrical rframe4 ("front") 650).pix 1 2 = specProjPix rframe4 650 1 2 := by
  have h := C5_projection_formula rframe4 ("front") 650 (by norm_num [rframe4])
    (by norm_num [rframe4]) (by norm_num) (by norm_num [rframe4])
  exact ⟨by norm_num [rframe4], by norm_num, by norm_num [rframe4], h.1, h.2.1,
    h.2.2 1 2 (by norm_num) (by norm_num [rframe4]) (by norm_num) (by norm_num [rframe4])⟩

end SurroundView
